import Mathlib

/-!
Verification of the transform engine of fb_mapper.py (tastyvitamin repository).

The embedding models pandas cells as tagged optional strings: a cell is either
missing (NaN, modelled as none) or a string (modelled as some s).  This matches
the data that reaches the transform in the application: pd.read_csv yields NaN
for blank cells and strings otherwise, and the spec itself mandates the
optional-string cell model.  Python observable operations used by the source
(str, strip, lower, title, truthiness, float, int, round) are modelled
explicitly below.  The pandas general datetime parser pd.to_datetime is
third-party library code and is passed to the transform as an explicit
parameter (todt); no branch settled by a claim depends on its value.
-/

/-- A pandas cell: none models NaN, some s models the string s. -/
abbrev Cell := Option String

/-- Python str(val) for a cell: str(NaN) is the string nan. -/
def pyStr (v : Cell) : String :=
  match v with
  | none => "nan"
  | some s => s

/-- Python truthiness of a cell: NaN (a float) is truthy, a string is truthy
iff nonempty. -/
def pyTruthy (v : Cell) : Bool :=
  match v with
  | none => true
  | some s => s ≠ ""

/-- Whitespace test used by Python strip and by the regex class for spaces,
restricted to the ASCII whitespace characters that occur in spreadsheet data. -/
def isWs (c : Char) : Bool :=
  c = ' ' ∨ c = '\t' ∨ c = '\n' ∨ c = '\r'

/-- Drop leading and trailing whitespace characters from a character list. -/
def stripList (l : List Char) : List Char :=
  ((l.dropWhile isWs).reverse.dropWhile isWs).reverse

/-- Python str.strip(). -/
def pyStrip (s : String) : String :=
  String.mk (stripList s.data)

/-- ASCII lower-casing of one character, as Python str.lower() does on the
ASCII range. -/
def charLower (c : Char) : Char :=
  if 'A' ≤ c ∧ c ≤ 'Z' then Char.ofNat (c.toNat + 32) else c

/-- Python str.lower() on the ASCII range. -/
def pyLower (s : String) : String :=
  String.mk (s.data.map charLower)

/-- ASCII upper-casing of one character. -/
def charUpper (c : Char) : Char :=
  if 'a' ≤ c ∧ c ≤ 'z' then Char.ofNat (c.toNat - 32) else c

/-- Letter test used to model Python str.title() word boundaries. -/
def isAlphaCh (c : Char) : Bool :=
  ('a' ≤ c ∧ c ≤ 'z') ∨ ('A' ≤ c ∧ c ≤ 'Z')

/-- Helper for pyTitle: walks the characters carrying whether the previous
character was a letter. -/
def titleGo (prevAlpha : Bool) : List Char → List Char
  | [] => []
  | c :: cs =>
    (if isAlphaCh c then (if prevAlpha then charLower c else charUpper c) else c)
      :: titleGo (isAlphaCh c) cs

/-- Python str.title() on the ASCII range: the first letter of every letter
run is upper-cased, the rest lower-cased. -/
def pyTitle (s : String) : String :=
  String.mk (titleGo false s.data)

/-- Numeric value of a decimal digit character, none for a non-digit. -/
def charDigit? (c : Char) : Option Nat :=
  if 48 ≤ c.toNat ∧ c.toNat ≤ 57 then some (c.toNat - 48) else none

/-- True iff every character of the list is a decimal digit. -/
def allDigits (l : List Char) : Bool :=
  l.all (fun c => (charDigit? c).isSome)

/-- Value of a nonempty digit string. -/
def digitsVal (l : List Char) : Nat :=
  l.foldl (fun acc c => 10 * acc + ((charDigit? c).getD 0)) 0

/-- Python int(s) on decimal strings: surrounding whitespace allowed, optional
sign, at least one digit. -/
def pyInt (s : String) : Option Int :=
  match stripList s.data with
  | '-' :: rest => if rest ≠ [] ∧ allDigits rest then some (-(digitsVal rest : Int)) else none
  | '+' :: rest => if rest ≠ [] ∧ allDigits rest then some ((digitsVal rest : Int)) else none
  | l => if l ≠ [] ∧ allDigits l then some ((digitsVal l : Int)) else none

/-- Unsigned decimal literal with optional fractional part, as accepted by
Python float() on plain decimal strings. -/
def parseUnsignedFloat (l : List Char) : Option Rat :=
  let intPart := l.takeWhile (fun c => (charDigit? c).isSome)
  let rest := l.drop intPart.length
  match rest with
  | [] => if intPart ≠ [] then some ((digitsVal intPart : Rat)) else none
  | '.' :: frac =>
    if allDigits frac ∧ (intPart ≠ [] ∨ frac ≠ []) then
      some ((digitsVal intPart : Rat) + (digitsVal frac : Rat) / ((10 : Rat) ^ frac.length))
    else none
  | _ => none

/-- Python float(s) restricted to plain decimal literals; e-notation and the
special words inf and nan are outside the modelled input domain (they reach
the same failure branch of the validator via a later exception in the source). -/
def pyFloat (s : String) : Option Rat :=
  match stripList s.data with
  | '-' :: rest => (parseUnsignedFloat rest).map (fun q => -q)
  | '+' :: rest => parseUnsignedFloat rest
  | l => parseUnsignedFloat l

/-- Python round() to an integer: round half to even. -/
def pyRound (q : Rat) : Int :=
  let f := q.floor
  let r := q - (f : Rat)
  if r < 1 / 2 then f
  else if 1 / 2 < r then f + 1
  else if f % 2 = 0 then f else f + 1

/-- True iff pat occurs at the start of l. -/
def startsWithList (pat l : List Char) : Bool :=
  match pat, l with
  | [], _ => true
  | _ :: _, [] => false
  | a :: as, b :: bs => a = b ∧ startsWithList as bs

/-- Python substring containment: pat in s. -/
def listHasSub (pat : List Char) : List Char → Bool
  | [] => startsWithList pat []
  | c :: cs => startsWithList pat (c :: cs) ∨ listHasSub pat cs

/-- Python substring containment on strings. -/
def pyIn (pat s : String) : Bool :=
  listHasSub pat.data s.data

/-- A parsed date-time value down to minutes, the precision the transform
formats with (strftime drops seconds). -/
structure DT where
  y : Nat
  mo : Nat
  d : Nat
  hh : Nat
  mi : Nat
deriving DecidableEq, Repr

/-- Gregorian leap-year test, as used by the Python datetime validity check. -/
def isLeap (y : Nat) : Bool :=
  (y % 4 = 0 ∧ y % 100 ≠ 0) ∨ y % 400 = 0

/-- Days in a month, as used by the Python datetime validity check. -/
def daysInMonth (y m : Nat) : Nat :=
  if m = 2 then (if isLeap y then 29 else 28)
  else if m = 4 ∨ m = 6 ∨ m = 9 ∨ m = 11 then 30
  else 31

/-- Validity of a date-time value, matching the Python datetime constructor:
year in MINYEAR..MAXYEAR, month 1..12, day 1..days of the month, hour below
24, minute below 60. -/
def validDT (t : DT) : Prop :=
  1 ≤ t.y ∧ t.y ≤ 9999 ∧ 1 ≤ t.mo ∧ t.mo ≤ 12 ∧
  1 ≤ t.d ∧ t.d ≤ daysInMonth t.y t.mo ∧ t.hh ≤ 23 ∧ t.mi ≤ 59

instance (t : DT) : Decidable (validDT t) := by
  unfold validDT
  infer_instance

/-- Decimal digit character for n modulo 10. -/
def digitChar (n : Nat) : Char :=
  match n % 10 with
  | 0 => '0' | 1 => '1' | 2 => '2' | 3 => '3' | 4 => '4'
  | 5 => '5' | 6 => '6' | 7 => '7' | 8 => '8' | _ => '9'

/-- Two-digit zero-padded rendering, as the Python strftime directives m, d,
H and M produce. -/
def pad2 (n : Nat) : List Char :=
  [digitChar (n / 10), digitChar n]

/-- Four-digit zero-padded rendering, as the Python strftime directive Y
produces for years up to 9999. -/
def pad4 (n : Nat) : List Char :=
  [digitChar (n / 1000), digitChar (n / 100), digitChar (n / 10), digitChar n]

/-- Python strftime with format string YYYY-MM-DD HH:MM. -/
def strftime_ymd_hm (t : DT) : String :=
  String.mk (pad4 t.y ++ '-' :: pad2 t.mo ++ '-' :: pad2 t.d ++
    ' ' :: pad2 t.hh ++ ':' :: pad2 t.mi)

/-- Read exactly four digit characters as a year, as the strptime directive Y
does. -/
def pYear : List Char → Option (Nat × List Char)
  | a :: b :: c :: d :: rest => do
    let xa ← charDigit? a
    let xb ← charDigit? b
    let xc ← charDigit? c
    let xd ← charDigit? d
    pure (((xa * 10 + xb) * 10 + xc) * 10 + xd, rest)
  | _ => none

/-- Read a one- or two-digit number the way the strptime digit-group regexes
match: a two-digit match must fall inside the two-digit range of the
directive, otherwise a single digit inside the one-digit range is taken, and
a following digit then makes the surrounding literal fail to match. -/
def pNum2 (lo2 hi2 lo1 hi1 : Nat) : List Char → Option (Nat × List Char)
  | c1 :: c2 :: rest =>
    match charDigit? c1, charDigit? c2 with
    | some a, some b =>
      let v := 10 * a + b
      if lo2 ≤ v ∧ v ≤ hi2 then some (v, rest) else none
    | some a, none =>
      if lo1 ≤ a ∧ a ≤ hi1 then some (a, c2 :: rest) else none
    | none, _ => none
  | [c1] =>
    match charDigit? c1 with
    | some a => if lo1 ≤ a ∧ a ≤ hi1 then some (a, []) else none
    | none => none
  | [] => none

/-- Expect one literal character. -/
def pChar (c : Char) : List Char → Option (List Char)
  | x :: rest => if x = c then some rest else none
  | [] => none

/-- Drop further whitespace characters. -/
def skipWs : List Char → List Char
  | c :: rest => if isWs c then skipWs rest else c :: rest
  | [] => []

/-- Consume one or more whitespace characters, as a whitespace character in a
strptime format string matches. -/
def pWs : List Char → Option (List Char)
  | c :: rest => if isWs c then some (skipWs rest) else none
  | [] => none

/-- Python datetime.strptime with format string YYYY-MM-DD HH:MM: the whole
input must be consumed and the parsed value must be a valid datetime. -/
def strptime_ymd_hm (s : String) : Option DT := do
  let (y, r1) ← pYear s.data
  let r2 ← pChar '-' r1
  let (mo, r3) ← pNum2 1 12 1 9 r2
  let r4 ← pChar '-' r3
  let (d, r5) ← pNum2 1 31 1 9 r4
  let r6 ← pWs r5
  let (h, r7) ← pNum2 0 23 0 9 r6
  let r8 ← pChar ':' r7
  let (mi, r9) ← pNum2 0 59 0 9 r8
  if r9 = [] ∧ 1 ≤ y ∧ d ≤ daysInMonth y mo then some ⟨y, mo, d, h, mi⟩ else none

/-- VALID status set (fb_mapper.py line 12). -/
def VALID_status : List String :=
  ["ACTIVE", "PAUSED", "ARCHIVED", "DELETED"]

/-- VALID objectives set (fb_mapper.py lines 13-16). -/
def VALID_objectives : List String :=
  ["Traffic", "Leads", "Conversions", "Sales", "Video Views", "Reach",
   "Engagement", "App Installs", "Brand Awareness", "Messages"]

/-- VALID buying types (fb_mapper.py line 17). -/
def VALID_buying_type : List String :=
  ["AUCTION", "FIXED_PRICE"]

/-- VALID bid strategies (fb_mapper.py line 18). -/
def VALID_bid_strategies : List String :=
  ["Lowest cost", "Cost cap", "ROAS goal", "Bid cap"]

/-- VALID call-to-action values (fb_mapper.py lines 19-22). -/
def VALID_cta : List String :=
  ["LEARN_MORE", "SIGN_UP", "GET_QUOTE", "SHOP_NOW", "SUBSCRIBE",
   "APPLY_NOW", "CONTACT_US", "BOOK_NOW", "DOWNLOAD", "GET_DIRECTIONS"]

/-- VALID gender values (fb_mapper.py line 23). -/
def VALID_gender : List String :=
  ["All", "Male", "Female"]

/-- OBJ_DEFAULTS (fb_mapper.py lines 34-45): objective name mapped to its
default optimisation goal and call to action. -/
def OBJ_DEFAULTS : List (String × String × String) :=
  [("Leads", "LEAD_GENERATION", "SIGN_UP"),
   ("Conversions", "CONVERSIONS", "SHOP_NOW"),
   ("Sales", "VALUE", "SHOP_NOW"),
   ("Traffic", "LINK_CLICKS", "LEARN_MORE"),
   ("Video Views", "THRUPLAY", "LEARN_MORE"),
   ("Brand Awareness", "BRAND_AWARENESS", "LEARN_MORE"),
   ("Reach", "REACH", "LEARN_MORE"),
   ("Engagement", "POST_ENGAGEMENT", "LEARN_MORE"),
   ("App Installs", "APP_INSTALLS", "DOWNLOAD"),
   ("Messages", "CONVERSATIONS", "CONTACT_US")]

/-- The general date-time parser type: models pd.to_datetime applied to a
nonempty stripped string, returning a parsed value or failing. -/
abbrev ToDatetime := String → Option DT

/-- _coerce_time (fb_mapper.py lines 47-67).  Blank (NaN or the empty string)
gives the empty string.  Otherwise the value is stripped; a 16-character
value with a space at index 10 goes through strptime with format
YYYY-MM-DD HH:MM and is re-rendered; ANY 10-character value is returned with
a midnight time appended, without parsing; anything else goes to the general
parser and is re-rendered, and a parse failure raises ValueError.  Message
quote marks are elided because string literals in this file avoid them. -/
def _coerce_time (todt : ToDatetime) (val : Cell) : Except String String :=
  if val = none ∨ val = some "" then .ok ""
  else
    let v := pyStrip (pyStr val)
    if v.length = 16 ∧ v.data[10]? = some ' ' then
      match strptime_ymd_hm v with
      | some t => .ok (strftime_ymd_hm t)
      | none => .error ("Invalid time format: " ++ v ++ ". Use YYYY-MM-DD HH:MM or YYYY-MM-DD")
    else if v.length = 10 then .ok (v ++ " 00:00")
    else
      match todt v with
      | some t => .ok (strftime_ymd_hm t)
      | none => .error ("Invalid time format: " ++ v ++ ". Use YYYY-MM-DD HH:MM or YYYY-MM-DD")

/-- _pos_number (fb_mapper.py lines 69-80): blank gives the empty string (or
the fallback 1 when blanks are not allowed); otherwise the value must be a
positive number and is rounded to the nearest integer and rendered. -/
def _pos_number (val : Cell) (allow_blank : Bool) : Except String String :=
  if val = none ∨ pyStrip (pyStr val) = "" then
    .ok (if allow_blank then "" else "1")
  else
    match pyFloat (pyStr val) with
    | none => .error ("Invalid positive number: " ++ pyStr val)
    | some v =>
      if v ≤ 0 then .error ("Invalid positive number: " ++ pyStr val)
      else .ok (toString (pyRound v))

/-- Rendering of the allowed set in the _enum error message; the source
prints the sorted Python list, here abbreviated to the unsorted list body. -/
def enumMsg (field s : String) (allowed : List String) : String :=
  field ++ ": " ++ s ++ " not in " ++ String.intercalate ", " allowed

/-- _enum (fb_mapper.py lines 82-89): NaN or the empty string gives the
default; otherwise the stripped value must belong to the allowed set. -/
def _enum (val : Cell) (allowed : List String) (field : String) (dflt : String) :
    Except String String :=
  if val = none ∨ val = some "" then .ok dflt
  else
    let s := pyStrip (pyStr val)
    if s ∈ allowed then .ok s else .error (enumMsg field s allowed)

/-- _gender (fb_mapper.py lines 91-98): NaN or the empty string gives All;
otherwise the stripped title-cased value must be All, Male or Female. -/
def _gender (val : Cell) : Except String String :=
  if val = none ∨ val = some "" then .ok "All"
  else
    let s := pyTitle (pyStrip (pyStr val))
    if s ∈ VALID_gender then .ok s
    else .error ("Gender: " ++ pyStr val ++ " must be one of All, Female, Male")

/-- Effective minimum age (fb_mapper.py lines 103-108): 13, raised to 18 when
the special-category value is truthy and strips to a nonempty string.  A NaN
cell is truthy in Python and its str form nan is nonempty, so NaN also gives
18. -/
def age_min_allowed (special : Cell) : Int :=
  if pyTruthy special ∧ pyStrip (pyStr special) ≠ "" then 18 else 13

/-- The age value actually parsed for one bound (fb_mapper.py lines 116-117):
the int of the cell when the cell is not NaN and strips to a nonempty string,
else the given default; a failing int conversion propagates as none. -/
def age_parse (v : Cell) (dflt : Int) : Option Int :=
  if v ≠ none ∧ pyStrip (pyStr v) ≠ "" then pyInt (pyStr v) else some dflt

/-- The single error message of _age_pair: both the min-above-max raise and
int conversion failures are re-raised with this text (lines 131-132). -/
def ageMsg (minv maxv : Cell) (minAllowed : Int) : String :=
  "Invalid age pair: Min=" ++ pyStr minv ++ ", Max=" ++ pyStr maxv ++
    ". Must be integers between " ++ toString minAllowed ++ "-65"

/-- _age_pair (fb_mapper.py lines 100-132).  Both bounds NaN short-circuits to
the defaults.  Otherwise each bound is parsed with the effective default; a
min above the max raises; then the min is raised to the effective minimum
when below it and the max lowered to 65 when above it, and the pair is
rendered as strings. -/
def _age_pair (minv maxv special : Cell) : Except String (String × String) :=
  let minAllowed := age_min_allowed special
  if minv = none ∧ maxv = none then
    .ok (toString minAllowed, toString (65 : Int))
  else
    match age_parse minv minAllowed with
    | none => .error (ageMsg minv maxv minAllowed)
    | some minAge =>
      match age_parse maxv 65 with
      | none => .error (ageMsg minv maxv minAllowed)
      | some maxAge =>
        if maxAge < minAge then .error (ageMsg minv maxv minAllowed)
        else
          .ok (toString (if minAge < minAllowed then minAllowed else minAge),
               toString (if 65 < maxAge then (65 : Int) else maxAge))

/-- Default call to action of an objective: the OBJ_DEFAULTS entry, or
LEARN_MORE without an entry (fb_mapper.py lines 138-140). -/
def objDefaultCta (objective : String) : String :=
  match List.lookup objective OBJ_DEFAULTS with
  | some p => p.2
  | none => "LEARN_MORE"

/-- Default optimisation goal of an objective: the OBJ_DEFAULTS entry, or
LINK_CLICKS without an entry (fb_mapper.py lines 146-148). -/
def objDefaultOpt (objective : String) : String :=
  match List.lookup objective OBJ_DEFAULTS with
  | some p => p.1
  | none => "LINK_CLICKS"

/-- _default_cta (fb_mapper.py lines 134-140): a truthy value stripping to a
nonempty string is validated against the CTA set; otherwise the objective
default applies.  A whitespace-only string fails the strip test and therefore
falls back to the default. -/
def _default_cta (objective : String) (cta : Cell) : Except String String :=
  if pyTruthy cta ∧ pyStrip (pyStr cta) ≠ "" then
    _enum cta VALID_cta "Call to Action" ""
  else .ok (objDefaultCta objective)

/-- _default_opt_goal (fb_mapper.py lines 142-148): a truthy value stripping
to a nonempty string is returned stripped with no enumeration check;
otherwise the objective default applies. -/
def _default_opt_goal (objective : String) (goal : Cell) : String :=
  if pyTruthy goal ∧ pyStrip (pyStr goal) ≠ "" then pyStrip (pyStr goal)
  else objDefaultOpt objective

/-- The fixed default UTM tag string (fb_mapper.py line 162). -/
def utmDefault : String :=
  "utm_source=facebook&utm_medium=cpc&utm_campaign=facebook_ads"

/-- _process_utm_parameters (fb_mapper.py lines 150-171): a blank link blanks
both outputs; a nonblank link with blank tags gets the default tag string;
nonblank tags must contain an equals sign and the marker utm_ or the call
fails. -/
def _process_utm_parameters (link utm_params : Cell) : Except String (String × String) :=
  if link = none ∨ pyStrip (pyStr link) = "" then .ok ("", "")
  else
    let clean_link := pyStrip (pyStr link)
    if utm_params = none ∨ pyStrip (pyStr utm_params) = "" then
      .ok (clean_link, utmDefault)
    else
      let clean_utm := pyStrip (pyStr utm_params)
      if pyIn "=" clean_utm ∧ pyIn "utm_" clean_utm then .ok (clean_link, clean_utm)
      else .error ("Invalid UTM format: " ++ clean_utm ++
        ". Expected format: utm_source=facebook&utm_medium=cpc&utm_campaign=name")

/-- One input row: the mapping from column name to cell of one pandas Series.
All rows of one table carry the same key list (the table columns). -/
abbrev Row := List (String × Cell)

/-- A successfully built output record: the dict literal built by transform,
mapping output column names to normalized strings. -/
abbrev Record := List (String × String)

/-- row.get(col, default) on a pandas Series: the stored cell when the column
exists (possibly NaN), else the given default string. -/
def rget (r : Row) (c : String) (dflt : String) : Cell :=
  (List.lookup c r).getD (some dflt)

/-- The cell stored at a column of a row, with a missing column reading as
NaN.  Used to state properties of rows; the transform itself reads columns
through rget. -/
def getCellJ (r : Row) (c : String) : Cell :=
  (List.lookup c r).join

/-- The campaign-scoped columns that are forward-filled before per-row
processing (fb_mapper.py lines 190-195). -/
def campaign_cols : List String :=
  ["Campaign Name", "Campaign Status", "Special Ad Categories",
   "Special Ad Category Country", "Campaign Objective", "Buying Type",
   "Campaign Bid Strategy", "Campaign Daily Budget", "Campaign Start Time",
   "Campaign Stop Time"]

/-- Replace the value stored at the first occurrence of a key. -/
def setKey : Row → String → Cell → Row
  | [], _, _ => []
  | (k, w) :: r, c, v => if k = c then (c, v) :: r else (k, w) :: setKey r c v

/-- Series.ffill on one column, walking the rows in order and carrying the
last non-NaN value seen: a NaN cell is replaced by that value (a leading NaN
stays NaN because the carried value starts as NaN). -/
def ffillColumnGo (c : String) (last : Cell) : List Row → List Row
  | [] => []
  | r :: rs =>
    match List.lookup c r with
    | some none => setKey r c last :: ffillColumnGo c last rs
    | some (some v) => r :: ffillColumnGo c (some v) rs
    | none => r :: ffillColumnGo c last rs

/-- df[col] = df[col].ffill() for one column. -/
def ffillColumn (c : String) (rows : List Row) : List Row :=
  ffillColumnGo c none rows

/-- An input table: the column list and the rows of the DataFrame given to
transform. -/
structure Table where
  cols : List String
  rows : List Row

/-- Well-formedness of an input table: every row carries exactly the table
columns as its keys, as pandas rows do. -/
def TableWF (t : Table) : Prop :=
  ∀ r ∈ t.rows, r.map Prod.fst = t.cols

instance (t : Table) : Decidable (TableWF t) := by
  unfold TableWF
  infer_instance

/-- The forward-fill pass of transform (fb_mapper.py lines 186-200): each
campaign-scoped column present in the table is forward-filled. -/
def ffillCampaign (t : Table) : Table :=
  ⟨t.cols,
   campaign_cols.foldl (fun rs c => if c ∈ t.cols then ffillColumn c rs else rs) t.rows⟩

/-- The row level read by transform (fb_mapper.py line 205): the Input Level
cell as a string, lower-cased then stripped. -/
def levelOf (r : Row) : String :=
  pyStrip (pyLower (pyStr (rget r "Input Level" "")))

/-- The dict literal of the campaign branch (fb_mapper.py lines 224-250),
with the validated values passed in. -/
def campaignRecord (r : Row) (objective cStatus bType bidStrat cBudget cStart cStop : String) :
    Record :=
  [("Campaign Name", pyStrip (pyStr (rget r "Campaign Name" ""))),
   ("Campaign Status", cStatus),
   ("Special Ad Categories", pyStrip (pyStr (rget r "Special Ad Categories" ""))),
   ("Special Ad Category Country", pyStrip (pyStr (rget r "Special Ad Category Country" ""))),
   ("Campaign Objective", objective),
   ("Buying Type", bType),
   ("Campaign Bid Strategy", bidStrat),
   ("Campaign Daily Budget", cBudget),
   ("Campaign Start Time", cStart),
   ("Campaign Stop Time", cStop)]

/-- The campaign-row builder (fb_mapper.py lines 216-251): validator calls
appear in source evaluation order (the objective first, then the dict entries
top to bottom); the first raised ValueError aborts the record. -/
def buildCampaign (todt : ToDatetime) (r : Row) : Except String Record := do
  let objective ← _enum (rget r "Campaign Objective" "") VALID_objectives "Campaign Objective" ""
  let cStatus ← _enum (rget r "Campaign Status" "ACTIVE") VALID_status "Campaign Status" "ACTIVE"
  let bType ← _enum (rget r "Buying Type" "AUCTION") VALID_buying_type "Buying Type" "AUCTION"
  let bidStrat ← _enum (rget r "Campaign Bid Strategy" "Lowest cost") VALID_bid_strategies
    "Campaign Bid Strategy" "Lowest cost"
  let cBudget ← _pos_number (rget r "Campaign Daily Budget" "") true
  let cStart ← _coerce_time todt (rget r "Campaign Start Time" "")
  let cStop ← _coerce_time todt (rget r "Campaign Stop Time" "")
  pure (campaignRecord r objective cStatus bType bidStrat cBudget cStart cStop)

/-- The stripped campaign budget string of an adset row (fb_mapper.py line
262). -/
def campaignBudgetRaw (r : Row) : String :=
  pyStrip (pyStr (rget r "Campaign Daily Budget" ""))

/-- The stripped ad-set budget string of an adset row (fb_mapper.py line
263). -/
def adsetBudgetStr (r : Row) : String :=
  pyStrip (pyStr (rget r "Ad Set Daily Budget" ""))

/-- The campaign budget after conflict resolution (fb_mapper.py lines
265-267): cleared when both budgets are nonempty. -/
def adsetCampaignBudget (r : Row) : String :=
  if campaignBudgetRaw r ≠ "" ∧ adsetBudgetStr r ≠ "" then "" else campaignBudgetRaw r

/-- The campaign budget entry of the adset dict (fb_mapper.py line 310): the
validated number when the resolved budget string is nonempty, else the empty
string. -/
def adsetCampaignBudgetVal (r : Row) : Except String String :=
  if adsetCampaignBudget r ≠ "" then _pos_number (some (adsetCampaignBudget r)) true
  else pure ""

/-- The ad-set budget entry of the adset dict (fb_mapper.py line 322). -/
def adsetBudgetVal (r : Row) : Except String String :=
  if adsetBudgetStr r ≠ "" then _pos_number (some (adsetBudgetStr r)) true
  else pure ""

/-- The dict literal of the adset branch (fb_mapper.py lines 286-350), with
the validated values passed in.  The last entry is the fixed placements flag
of line 349. -/
def adsetRecord (r : Row) (objective : String) (ages linkUtm : String × String)
    (cta optGoal cStatus bType bidStrat cBudget cStart cStop asStatus asBudget asStart asStop
      gender adStatus : String) : Record :=
  [("Campaign Name", pyStrip (pyStr (rget r "Campaign Name" ""))),
   ("Campaign Status", cStatus),
   ("Special Ad Categories", pyStrip (pyStr (rget r "Special Ad Categories" ""))),
   ("Special Ad Category Country", pyStrip (pyStr (rget r "Special Ad Category Country" ""))),
   ("Campaign Objective", objective),
   ("Buying Type", bType),
   ("Campaign Bid Strategy", bidStrat),
   ("Campaign Daily Budget", cBudget),
   ("Campaign Start Time", cStart),
   ("Campaign Stop Time", cStop),
   ("Ad Set Name", pyStrip (pyStr (rget r "Ad Set Name" ""))),
   ("Ad Set Run Status", asStatus),
   ("Ad Set Daily Budget", asBudget),
   ("Ad Set Time Start", asStart),
   ("Ad Set Time Stop", asStop),
   ("Countries", pyStrip (pyStr (rget r "Countries" ""))),
   ("Age Min", ages.1),
   ("Age Max", ages.2),
   ("Gender", gender),
   ("Custom Audiences", pyStrip (pyStr (rget r "Custom Audiences" ""))),
   ("Excluded Custom Audiences", pyStrip (pyStr (rget r "Excluded Custom Audiences" ""))),
   ("Optimisation Goal", optGoal),
   ("Ad Name", pyStrip (pyStr (rget r "Ad Name" ""))),
   ("Ad Status", adStatus),
   ("Title", pyStrip (pyStr (rget r "Title" ""))),
   ("Body", pyStrip (pyStr (rget r "Body" ""))),
   ("Link", linkUtm.1),
   ("URL Tags", linkUtm.2),
   ("Call to Action", cta),
   ("Image File Name", pyStrip (pyStr (rget r "Image File Name" ""))),
   ("Advantage+ placements", "true")]

/-- The adset-row builder (fb_mapper.py lines 253-351).  The stripped budget
strings are read first; when both are nonempty the campaign budget is cleared
(lines 261-267).  Validator calls appear in source evaluation order. -/
def buildAdset (todt : ToDatetime) (r : Row) : Except String Record := do
  let objective ← _enum (rget r "Campaign Objective" "") VALID_objectives "Campaign Objective" ""
  let ages ← _age_pair (rget r "Age Min" "") (rget r "Age Max" "")
    (rget r "Special Ad Categories" "")
  let linkUtm ← _process_utm_parameters (rget r "Link" "") (rget r "URL Tags" "")
  let cta ← _default_cta objective (rget r "Call to Action" "")
  let optGoal := _default_opt_goal objective (rget r "Optimisation Goal" "")
  let cStatus ← _enum (rget r "Campaign Status" "ACTIVE") VALID_status "Campaign Status" "ACTIVE"
  let bType ← _enum (rget r "Buying Type" "AUCTION") VALID_buying_type "Buying Type" "AUCTION"
  let bidStrat ← _enum (rget r "Campaign Bid Strategy" "Lowest cost") VALID_bid_strategies
    "Campaign Bid Strategy" "Lowest cost"
  let cBudget ← adsetCampaignBudgetVal r
  let cStart ← _coerce_time todt (rget r "Campaign Start Time" "")
  let cStop ← _coerce_time todt (rget r "Campaign Stop Time" "")
  let asStatus ← _enum (rget r "Ad Set Run Status" "ACTIVE") VALID_status "Ad Set Run Status" "ACTIVE"
  let asBudget ← adsetBudgetVal r
  let asStart ← _coerce_time todt (rget r "Ad Set Time Start" "")
  let asStop ← _coerce_time todt (rget r "Ad Set Time Stop" "")
  let gender ← _gender (rget r "Gender" "All")
  let adStatus ← _enum (rget r "Ad Status" "ACTIVE") VALID_status "Ad Status" "ACTIVE"
  pure (adsetRecord r objective ages linkUtm cta optGoal cStatus bType bidStrat cBudget
    cStart cStop asStatus asBudget asStart asStop gender adStatus)

/-- Dispatch on the row level inside the try block (fb_mapper.py line 216). -/
def buildRow (todt : ToDatetime) (level : String) (r : Row) : Except String Record :=
  if level = "campaign" then buildCampaign todt r else buildAdset todt r

/-- One error record appended to the errors list (row number, field tag,
message). -/
structure ErrRec where
  row : Nat
  field : String
  error : String
deriving DecidableEq, Repr

/-- The outcome of processing one row: a built record appended to the rows
list, or an error record appended to the errors list. -/
inductive RowOutcome where
  | built (record : Record)
  | failed (e : ErrRec)
deriving DecidableEq, Repr

/-- Processing of the row at position i (fb_mapper.py lines 203-358): the row
number is the position plus 2 (1-based data plus header line); a level
outside campaign and adset yields an Input Level error; otherwise a raised
ValueError in the builder yields an error tagged with the level, and a built
record otherwise.  The quote marks of the source message around the words
campaign and adset are elided, as in every message literal of this file. -/
def rowOutcome (todt : ToDatetime) (i : Nat) (r : Row) : RowOutcome :=
  let level := levelOf r
  if level = "campaign" ∨ level = "adset" then
    match buildRow todt level r with
    | .ok rec => .built rec
    | .error msg => .failed ⟨i + 2, level, msg⟩
  else .failed ⟨i + 2, "Input Level", "Must be campaign or adset"⟩

/-- The outcomes of a row list starting at position k. -/
def outcomesFrom (todt : ToDatetime) (k : Nat) : List Row → List RowOutcome
  | [] => []
  | r :: rs => rowOutcome todt k r :: outcomesFrom todt (k + 1) rs

/-- The built records, in row order. -/
def recordsOf (outs : List RowOutcome) : List Record :=
  outs.filterMap (fun o => match o with | .built rec => some rec | .failed _ => none)

/-- The error records, in row order. -/
def errorsOf (outs : List RowOutcome) : List ErrRec :=
  outs.filterMap (fun o => match o with | .built _ => none | .failed e => some e)

/-- An output table: the column list and cell rows of the produced DataFrame. -/
structure PTable where
  cols : List String
  rows : List (List Cell)
deriving DecidableEq, Repr

/-- The column list of pd.DataFrame applied to a list of dicts: the union of
the dict key lists, in order of first appearance. -/
def dfColumns (recs : List Record) : List String :=
  (recs.flatMap (List.map Prod.fst)).foldl (fun acc k => if k ∈ acc then acc else acc ++ [k]) []

/-- One DataFrame cell from one record: the stored string, or NaN when the
record lacks the key. -/
def dfCell (rec : Record) (c : String) : Cell :=
  List.lookup c rec

/-- pd.DataFrame on a list of records: keys missing from a record become NaN
cells. -/
def pdDataFrame (recs : List Record) : PTable :=
  let cols := dfColumns recs
  ⟨cols, recs.map (fun rec => cols.map (fun c => dfCell rec c))⟩

/-- The canonical output column order (fb_mapper.py lines 364-379). -/
def column_order : List String :=
  ["Campaign Name", "Campaign Status", "Special Ad Categories",
   "Special Ad Category Country", "Campaign Objective", "Buying Type",
   "Campaign Bid Strategy", "Campaign Daily Budget", "Campaign Start Time",
   "Campaign Stop Time",
   "Ad Set Name", "Ad Set Run Status", "Ad Set Daily Budget",
   "Ad Set Time Start", "Ad Set Time Stop", "Countries", "Age Min", "Age Max",
   "Gender", "Custom Audiences", "Excluded Custom Audiences", "Optimisation Goal",
   "Ad Name", "Ad Status", "Title", "Body", "Link", "URL Tags",
   "Call to Action", "Image File Name"]

/-- output_df[col] = "" for a column absent from the frame: the column is
appended and every row gets an empty-string cell. -/
def addBlankCol (p : PTable) (c : String) : PTable :=
  ⟨p.cols ++ [c], p.rows.map (fun row => row ++ [some ""])⟩

/-- The completion loop (fb_mapper.py lines 382-384): every canonical column
missing from the frame is added filled with empty strings. -/
def ensureColumns (p : PTable) : PTable :=
  column_order.foldl (fun acc c => if c ∈ acc.cols then acc else addBlankCol acc c) p

/-- Position of a column name in a column list. -/
def colIdx? (cols : List String) (c : String) : Option Nat :=
  match cols with
  | [] => none
  | k :: ks => if k = c then some 0 else (colIdx? ks c).map (· + 1)

/-- The cell of a positional row at a named column of a frame. -/
def cellAtP (cols : List String) (row : List Cell) (c : String) : Cell :=
  match colIdx? cols c with
  | some i => (row[i]?).getD none
  | none => none

/-- Column selection output_df[column_order] (fb_mapper.py line 386): the
listed columns in the listed order; columns of the frame outside the list
are dropped. -/
def selectCols (p : PTable) (cs : List String) : PTable :=
  ⟨cs, p.rows.map (fun row => cs.map (fun c => cellAtP p.cols row c))⟩

/-- The table-assembly tail of transform (fb_mapper.py lines 360-386). -/
def assembleOutput (recs : List Record) : PTable :=
  selectCols (ensureColumns (pdDataFrame recs)) column_order

/-- The per-row outcomes of transform after the forward-fill pass. -/
def transformOutcomes (todt : ToDatetime) (t : Table) : List RowOutcome :=
  outcomesFrom todt 0 (ffillCampaign t).rows

/-- transform (fb_mapper.py lines 173-391): forward-fill, per-row processing,
then assembly of the output frame and the error list. -/
def transform (todt : ToDatetime) (t : Table) : PTable × List ErrRec :=
  (assembleOutput (recordsOf (transformOutcomes todt t)),
   errorsOf (transformOutcomes todt t))

/-- A convenience accessor for stating cell-level facts about a frame. -/
def tableCell (p : PTable) (i : Nat) (c : String) : Cell :=
  cellAtP p.cols (p.rows.getD i []) c

/-- A general parser that parses nothing: instantiating the pd.to_datetime
parameter with it shows facts that hold regardless of the library parser. -/
def todt0 : ToDatetime := fun _ => none

/-- Reference model of Series.ffill at cell level: carries the last non-NaN
value. -/
def ffillCellsGo (last : Cell) : List Cell → List Cell
  | [] => []
  | c :: cs =>
    match c with
    | some v => some v :: ffillCellsGo (some v) cs
    | none => last :: ffillCellsGo last cs

/-- The last non-NaN value of a cell list, seeded: the nearest preceding
non-blank value when applied to a row prefix. -/
def lastSomeFrom (seed : Cell) (l : List Cell) : Cell :=
  l.foldl (fun acc x => match x with | some v => some v | none => acc) seed

/-- A cell holding a nonempty string that strips to nothing: the
whitespace-only cells of claim C10. -/
def wsOnly (c : Cell) : Prop :=
  ∃ s, c = some s ∧ s ≠ "" ∧ pyStrip s = ""

/- Concrete inputs used by the per-claim witnesses and counterexamples. -/

/-- C1 witness input: the middle row carries an invalid objective. -/
def rowC1a : Row :=
  [("Input Level", some "campaign"), ("Campaign Name", some "Summer"),
   ("Campaign Objective", some "Traffic")]

/-- C1 witness input, failing middle row. -/
def rowC1b : Row :=
  [("Input Level", some "campaign"), ("Campaign Name", some "Winter"),
   ("Campaign Objective", some "Junk")]

/-- C1 witness input, trailing healthy adset row. -/
def rowC1c : Row :=
  [("Input Level", some "adset"), ("Campaign Name", none),
   ("Campaign Objective", some "Leads")]

/-- C1 witness table. -/
def tblC1 : Table :=
  ⟨["Input Level", "Campaign Name", "Campaign Objective"], [rowC1a, rowC1b, rowC1c]⟩

/-- The forward-filled shape of the C1 witness rows: only the missing
campaign name of the adset row changes. -/
def rowC1cF : Row :=
  [("Input Level", some "adset"), ("Campaign Name", some "Winter"),
   ("Campaign Objective", some "Leads")]

/-- The message raised on the failing C1 witness row. -/
def msgC1 : String := enumMsg "Campaign Objective" "Junk" VALID_objectives

/-- C2 counterexample input: one plain adset row. -/
def rowC2 : Row :=
  [("Input Level", some "adset"), ("Campaign Objective", some "Traffic")]

/-- C2 counterexample table. -/
def tblC2 : Table :=
  ⟨["Input Level", "Campaign Objective"], [rowC2]⟩

/-- C3 counterexample input: a campaign row followed by an adset row, so the
output frame owns ad-set columns the campaign record never set. -/
def rowC3a : Row :=
  [("Input Level", some "campaign"), ("Campaign Name", some "Brand"),
   ("Campaign Objective", some "Traffic"), ("Ad Set Name", none)]

/-- C3 counterexample input, adset row. -/
def rowC3b : Row :=
  [("Input Level", some "adset"), ("Campaign Name", none),
   ("Campaign Objective", none), ("Ad Set Name", some "Prospecting")]

/-- C3 counterexample table. -/
def tblC3 : Table :=
  ⟨["Input Level", "Campaign Name", "Campaign Objective", "Ad Set Name"], [rowC3a, rowC3b]⟩

/-- C5 witness table: one campaign row followed by two adset rows whose
campaign-scoped cells are blank. -/
def rowC5a : Row :=
  [("Input Level", some "campaign"), ("Campaign Name", some "Brand"),
   ("Campaign Objective", some "Traffic")]

/-- C5 witness input, first blank adset row. -/
def rowC5b : Row :=
  [("Input Level", some "adset"), ("Campaign Name", none), ("Campaign Objective", none)]

/-- C5 witness input, second blank adset row. -/
def rowC5c : Row :=
  [("Input Level", some "adset"), ("Campaign Name", none), ("Campaign Objective", none)]

/-- C5 witness table. -/
def tblC5 : Table :=
  ⟨["Input Level", "Campaign Name", "Campaign Objective"], [rowC5a, rowC5b, rowC5c]⟩

/-- C7 witness input: an adset row carrying both budgets. -/
def rowC7 : Row :=
  [("Input Level", some "adset"), ("Campaign Objective", some "Traffic"),
   ("Campaign Daily Budget", some "100"), ("Ad Set Daily Budget", some "50")]

/-- The record built from the C7 witness row. -/
def recC7 : Record :=
  match buildAdset todt0 rowC7 with
  | .ok rec => rec
  | .error _ => []

/-- C8 counterexample input: mixed levels plus a column outside the canonical
set. -/
def rowC8a : Row :=
  [("Input Level", some "adset"), ("Campaign Objective", some "Leads"),
   ("Internal Notes", some "keep"), ("Age Min", some "21")]

/-- C8 counterexample input, campaign row lacking the ad-set fields. -/
def rowC8b : Row :=
  [("Input Level", some "campaign"), ("Campaign Objective", some "Leads"),
   ("Internal Notes", some "drop"), ("Age Min", none)]

/-- C8 counterexample table. -/
def tblC8 : Table :=
  ⟨["Input Level", "Campaign Objective", "Internal Notes", "Age Min"], [rowC8a, rowC8b]⟩

/-- C9 witness input: healthy campaign row. -/
def rowC9a : Row :=
  [("Input Level", some "campaign"), ("Campaign Objective", some "Reach")]

/-- C9 witness input: the level is neither campaign nor adset after
normalisation. -/
def rowC9b : Row :=
  [("Input Level", some " AdGroup "), ("Campaign Objective", some "Reach")]

/-- C9 witness input: healthy adset row with a level needing trimming and
lower-casing. -/
def rowC9c : Row :=
  [("Input Level", some " ADSET "), ("Campaign Objective", some "Reach")]

/-- C9 witness table. -/
def tblC9 : Table :=
  ⟨["Input Level", "Campaign Objective"], [rowC9a, rowC9b, rowC9c]⟩

/-- C10 counterexample input: a healthy adset row whose call-to-action cell
is whitespace-only. -/
def rowC10 : Row :=
  [("Input Level", some "adset"), ("Campaign Objective", some "Leads"),
   ("Call to Action", some "   ")]

/-- C10 counterexample table. -/
def tblC10 : Table :=
  ⟨["Input Level", "Campaign Objective", "Call to Action"], [rowC10]⟩

/-- C10 amended-claim witness input: a campaign row whose status cell is
whitespace-only. -/
def rowC10w : Row :=
  [("Input Level", some "campaign"), ("Campaign Objective", some "Leads"),
   ("Campaign Status", some "  ")]

theorem exbind_ok {α β : Type} {x : Except String α} {f : α → Except String β} {b : β} :
    (x >>= f) = .ok b ↔ ∃ a, x = .ok a ∧ f a = .ok b := by
  cases x with
  | error e =>
    constructor
    · intro h
      exact absurd (show Except.error e = Except.ok b from h) (fun hh => by cases hh)
    · rintro ⟨a, ha, _⟩
      cases ha
  | ok a =>
    constructor
    · intro h
      exact ⟨a, rfl, h⟩
    · rintro ⟨a2, ha2, hf⟩
      cases ha2
      exact hf

theorem expure_ok {α : Type} {x b : α} :
    (pure x : Except String α) = .ok b ↔ x = b := by
  constructor
  · intro h
    cases show Except.ok x = Except.ok b from h
    rfl
  · intro h
    cases h
    rfl

theorem outcomesFrom_append (todt : ToDatetime) (k : Nat) (xs ys : List Row) :
    outcomesFrom todt k (xs ++ ys) =
      outcomesFrom todt k xs ++ outcomesFrom todt (k + xs.length) ys := by
  induction xs generalizing k with
  | nil => simp [outcomesFrom]
  | cons x xs ih =>
    rw [List.cons_append]
    show rowOutcome todt k x :: outcomesFrom todt (k + 1) (xs ++ ys) = _
    rw [ih]
    have hk : k + 1 + xs.length = k + (x :: xs).length := by
      simp
      omega
    rw [hk]
    rfl

theorem errorsOf_append (a b : List RowOutcome) :
    errorsOf (a ++ b) = errorsOf a ++ errorsOf b :=
  List.filterMap_append a b _

theorem recordsOf_append (a b : List RowOutcome) :
    recordsOf (a ++ b) = recordsOf a ++ recordsOf b :=
  List.filterMap_append a b _

theorem rowOutcome_failed_row (todt : ToDatetime) (k : Nat) (r : Row) (e : ErrRec)
    (h : rowOutcome todt k r = .failed e) : e.row = k + 2 := by
  simp only [rowOutcome] at h
  split at h
  · split at h
    · cases h
    · cases h
      rfl
  · cases h
    rfl

theorem errRow_range (todt : ToDatetime) (k : Nat) (rs : List Row) :
    ∀ e ∈ errorsOf (outcomesFrom todt k rs), k + 2 ≤ e.row ∧ e.row < k + rs.length + 2 := by
  induction rs generalizing k with
  | nil =>
    intro e he
    simp [outcomesFrom, errorsOf] at he
  | cons r rs ih =>
    intro e he
    rw [show outcomesFrom todt k (r :: rs) = rowOutcome todt k r :: outcomesFrom todt (k + 1) rs
      from rfl] at he
    cases hro : rowOutcome todt k r with
    | built rec =>
      rw [hro] at he
      simp only [errorsOf, List.filterMap_cons] at he
      have := ih (k + 1) e he
      constructor
      · omega
      · simp only [List.length_cons]
        omega
    | failed e0 =>
      rw [hro] at he
      simp only [errorsOf, List.filterMap_cons, List.mem_cons] at he
      rcases he with he | he
      · subst he
        have := rowOutcome_failed_row todt k r _ hro
        constructor
        · omega
        · simp only [List.length_cons]
          omega
      · have := ih (k + 1) e he
        constructor
        · omega
        · simp only [List.length_cons]
          omega

theorem transform_row_failed (todt : ToDatetime) (t : Table) (X Y : List Row) (r : Row)
    (e : ErrRec) (hsplit : (ffillCampaign t).rows = X ++ r :: Y)
    (hro : rowOutcome todt X.length r = .failed e) (hrow : e.row = X.length + 2) :
    recordsOf (transformOutcomes todt t) =
      recordsOf (outcomesFrom todt 0 X) ++ recordsOf (outcomesFrom todt (X.length + 1) Y) ∧
    errorsOf (transformOutcomes todt t) =
      errorsOf (outcomesFrom todt 0 X) ++
        e :: errorsOf (outcomesFrom todt (X.length + 1) Y) ∧
    (transform todt t).2.countP (fun x => x.row == X.length + 2) = 1 := by
  have hout : transformOutcomes todt t =
      outcomesFrom todt 0 X ++
        RowOutcome.failed e :: outcomesFrom todt (X.length + 1) Y := by
    rw [transformOutcomes, hsplit, outcomesFrom_append]
    congr 1
    show outcomesFrom todt (0 + X.length) (r :: Y) = _
    rw [Nat.zero_add]
    show rowOutcome todt X.length r :: outcomesFrom todt (X.length + 1) Y = _
    rw [hro]
  refine ⟨?_, ?_, ?_⟩
  · rw [hout, recordsOf_append]
    rfl
  · rw [hout, errorsOf_append]
    rfl
  · rw [show (transform todt t).2 = errorsOf (transformOutcomes todt t) from rfl, hout,
      errorsOf_append]
    rw [show errorsOf (RowOutcome.failed e :: outcomesFrom todt (X.length + 1) Y) =
      e :: errorsOf (outcomesFrom todt (X.length + 1) Y) from rfl]
    rw [List.countP_append, List.countP_cons]
    have h1 : (errorsOf (outcomesFrom todt 0 X)).countP (fun x => x.row == X.length + 2) = 0 := by
      rw [List.countP_eq_zero]
      intro a ha
      have hb := errRow_range todt 0 X a ha
      simp only [beq_iff_eq]
      omega
    have h2 : (errorsOf (outcomesFrom todt (X.length + 1) Y)).countP
        (fun x => x.row == X.length + 2) = 0 := by
      rw [List.countP_eq_zero]
      intro a ha
      have hb := errRow_range todt (X.length + 1) Y a ha
      simp only [beq_iff_eq]
      omega
    rw [h1, h2, hrow]
    simp

/-- Claim C1: a validator error while building a row drops exactly that row:
the records of the transform are exactly those of the other rows, one error
record is appended for the row carrying its source row number, its level as
the field tag and the raised message, exactly one error mentions that row
number, and the transform still returns both tables (no batch abort). -/
theorem fbm_C1 (todt : ToDatetime) (t : Table) (X Y : List Row) (r : Row) (msg : String)
    (hsplit : (ffillCampaign t).rows = X ++ r :: Y)
    (hlv : levelOf r = "campaign" ∨ levelOf r = "adset")
    (hb : buildRow todt (levelOf r) r = .error msg) :
    recordsOf (transformOutcomes todt t) =
      recordsOf (outcomesFrom todt 0 X) ++ recordsOf (outcomesFrom todt (X.length + 1) Y) ∧
    errorsOf (transformOutcomes todt t) =
      errorsOf (outcomesFrom todt 0 X) ++
        ⟨X.length + 2, levelOf r, msg⟩ :: errorsOf (outcomesFrom todt (X.length + 1) Y) ∧
    (transform todt t).2.countP (fun x => x.row == X.length + 2) = 1 ∧
    (transform todt t).2 = errorsOf (transformOutcomes todt t) ∧
    (transform todt t).1 = assembleOutput (recordsOf (transformOutcomes todt t)) := by
  have hro : rowOutcome todt X.length r = .failed ⟨X.length + 2, levelOf r, msg⟩ := by
    simp only [rowOutcome]
    rw [if_pos hlv, hb]
  have h := transform_row_failed todt t X Y r ⟨X.length + 2, levelOf r, msg⟩ hsplit hro rfl
  exact ⟨h.1, h.2.1, h.2.2, rfl, rfl⟩

/-- Claim C9: a row whose normalised Input Level is neither campaign nor
adset is excluded from the records, exactly one error record with field
Input Level is appended for it, and the other rows are processed
unaffected. -/
theorem fbm_C9 (todt : ToDatetime) (t : Table) (X Y : List Row) (r : Row)
    (hsplit : (ffillCampaign t).rows = X ++ r :: Y)
    (hlv : ¬(levelOf r = "campaign" ∨ levelOf r = "adset")) :
    recordsOf (transformOutcomes todt t) =
      recordsOf (outcomesFrom todt 0 X) ++ recordsOf (outcomesFrom todt (X.length + 1) Y) ∧
    errorsOf (transformOutcomes todt t) =
      errorsOf (outcomesFrom todt 0 X) ++
        ⟨X.length + 2, "Input Level", "Must be campaign or adset"⟩ ::
          errorsOf (outcomesFrom todt (X.length + 1) Y) ∧
    (transform todt t).2.countP (fun x => x.row == X.length + 2) = 1 ∧
    (transform todt t).2 = errorsOf (transformOutcomes todt t) := by
  have hro : rowOutcome todt X.length r =
      .failed ⟨X.length + 2, "Input Level", "Must be campaign or adset"⟩ := by
    simp only [rowOutcome]
    rw [if_neg hlv]
  have h := transform_row_failed todt t X Y r
    ⟨X.length + 2, "Input Level", "Must be campaign or adset"⟩ hsplit hro rfl
  exact ⟨h.1, h.2.1, h.2.2, rfl⟩

/-- Witness for C1 at a concrete table: the middle row of tblC1 has an
invalid objective, exactly one error mentions its source row 3, the error
table holds exactly that record, and both flanking rows still produce
records. -/
theorem fbm_C1_witness :
    (transform todt0 tblC1).2.countP (fun x => x.row == 3) = 1 ∧
    (transform todt0 tblC1).2 = [⟨3, "campaign", msgC1⟩] ∧
    (recordsOf (transformOutcomes todt0 tblC1)).length = 2 :=
  ⟨(fbm_C1 todt0 tblC1 [rowC1a] [rowC1cF] rowC1b msgC1 (by decide) (by decide) rfl).2.2.1,
   by decide, by decide⟩

/-- Witness for C9 at a concrete table: the middle row of tblC9 has level
AdGroup, which is excluded with one Input Level error, while the row whose
level normalises to adset is processed. -/
theorem fbm_C9_witness :
    (transform todt0 tblC9).2.countP (fun x => x.row == 3) = 1 ∧
    (transform todt0 tblC9).2 = [⟨3, "Input Level", "Must be campaign or adset"⟩] ∧
    (recordsOf (transformOutcomes todt0 tblC9)).length = 2 :=
  ⟨(fbm_C9 todt0 tblC9 [rowC9a] [rowC9c] rowC9b (by decide) (by decide)).2.2.1,
   by decide, by decide⟩

theorem buildAdset_ok_elim {todt : ToDatetime} {r : Row} {rec : Record}
    (h : buildAdset todt r = .ok rec) :
    ∃ objective ages linkUtm cta cS bT bS cB cSt cSp aS aB aSt aSp g adS,
      _enum (rget r "Campaign Objective" "") VALID_objectives "Campaign Objective" "" =
        .ok objective ∧
      _age_pair (rget r "Age Min" "") (rget r "Age Max" "")
        (rget r "Special Ad Categories" "") = .ok ages ∧
      _process_utm_parameters (rget r "Link" "") (rget r "URL Tags" "") = .ok linkUtm ∧
      _default_cta objective (rget r "Call to Action" "") = .ok cta ∧
      _enum (rget r "Campaign Status" "ACTIVE") VALID_status "Campaign Status" "ACTIVE" = .ok cS ∧
      _enum (rget r "Buying Type" "AUCTION") VALID_buying_type "Buying Type" "AUCTION" = .ok bT ∧
      _enum (rget r "Campaign Bid Strategy" "Lowest cost") VALID_bid_strategies
        "Campaign Bid Strategy" "Lowest cost" = .ok bS ∧
      adsetCampaignBudgetVal r = .ok cB ∧
      _coerce_time todt (rget r "Campaign Start Time" "") = .ok cSt ∧
      _coerce_time todt (rget r "Campaign Stop Time" "") = .ok cSp ∧
      _enum (rget r "Ad Set Run Status" "ACTIVE") VALID_status "Ad Set Run Status" "ACTIVE" =
        .ok aS ∧
      adsetBudgetVal r = .ok aB ∧
      _coerce_time todt (rget r "Ad Set Time Start" "") = .ok aSt ∧
      _coerce_time todt (rget r "Ad Set Time Stop" "") = .ok aSp ∧
      _gender (rget r "Gender" "All") = .ok g ∧
      _enum (rget r "Ad Status" "ACTIVE") VALID_status "Ad Status" "ACTIVE" = .ok adS ∧
      rec = adsetRecord r objective ages linkUtm cta
        (_default_opt_goal objective (rget r "Optimisation Goal" "")) cS bT bS cB
        cSt cSp aS aB aSt aSp g adS := by
  simp only [buildAdset, exbind_ok, expure_ok] at h
  obtain ⟨objective, hobj, ages, hages, linkUtm, hutm, cta, hcta, cS, hcS, bT, hbT, bS, hbS,
    cB, hcB, cSt, hcSt, cSp, hcSp, aS, haS, aB, haB, aSt, haSt, aSp, haSp, g, hg, adS, hadS,
    hrec⟩ := h
  exact ⟨objective, ages, linkUtm, cta, cS, bT, bS, cB, cSt, cSp, aS, aB, aSt, aSp, g, adS,
    hobj, hages, hutm, hcta, hcS, hbT, hbS, hcB, hcSt, hcSp, haS, haB, haSt, haSp, hg, hadS,
    hrec.symm⟩

theorem buildCampaign_ok_elim {todt : ToDatetime} {r : Row} {rec : Record}
    (h : buildCampaign todt r = .ok rec) :
    ∃ objective cS bT bS cB cSt cSp,
      _enum (rget r "Campaign Objective" "") VALID_objectives "Campaign Objective" "" =
        .ok objective ∧
      _enum (rget r "Campaign Status" "ACTIVE") VALID_status "Campaign Status" "ACTIVE" = .ok cS ∧
      _enum (rget r "Buying Type" "AUCTION") VALID_buying_type "Buying Type" "AUCTION" = .ok bT ∧
      _enum (rget r "Campaign Bid Strategy" "Lowest cost") VALID_bid_strategies
        "Campaign Bid Strategy" "Lowest cost" = .ok bS ∧
      _pos_number (rget r "Campaign Daily Budget" "") true = .ok cB ∧
      _coerce_time todt (rget r "Campaign Start Time" "") = .ok cSt ∧
      _coerce_time todt (rget r "Campaign Stop Time" "") = .ok cSp ∧
      rec = campaignRecord r objective cS bT bS cB cSt cSp := by
  simp only [buildCampaign, exbind_ok, expure_ok] at h
  obtain ⟨objective, hobj, cS, hcS, bT, hbT, bS, hbS, cB, hcB, cSt, hcSt, cSp, hcSp, hrec⟩ := h
  exact ⟨objective, cS, bT, bS, cB, cSt, cSp, hobj, hcS, hbT, hbS, hcB, hcSt, hcSp, hrec.symm⟩

/-- Counterexample to C2 as stated: on a table with one adset row the built
record does carry the placements flag set true, yet the placements column is
not among the headers of the final output table, so the output contract
header set of the claim is not reproduced. -/
theorem fbm_C2_counterexample :
    List.lookup "Advantage+ placements" ((recordsOf (transformOutcomes todt0 tblC2)).getD 0 []) =
      some "true" ∧
    "Advantage+ placements" ∉ (transform todt0 tblC2).1.cols := by
  constructor
  · decide
  · decide

/-- Claim C2 amended: every successfully built adset record carries the fixed
placements flag set to the string true, but the final output table always has
exactly the canonical column list, which does not contain the placements
column — the flag is dropped by the final column selection. -/
theorem fbm_C2_amended (todt : ToDatetime) (r : Row) (rec : Record)
    (h : buildAdset todt r = .ok rec) :
    List.lookup "Advantage+ placements" rec = some "true" ∧
    (∀ t : Table, (transform todt t).1.cols = column_order) ∧
    "Advantage+ placements" ∉ column_order := by
  refine ⟨?_, fun t => rfl, by decide⟩
  obtain ⟨objective, ages, linkUtm, cta, cS, bT, bS, cB, cSt, cSp, aS, aB, aSt, aSp, g, adS,
    _, _, _, _, _, _, _, _, _, _, _, _, _, _, _, _, hrec⟩ := buildAdset_ok_elim h
  subst hrec
  rfl

/-- Witness for the amended C2 at a concrete adset row. -/
theorem fbm_C2_witness :
    List.lookup "Advantage+ placements"
      ((recordsOf (transformOutcomes todt0 tblC2)).getD 0 []) = some "true" ∧
    (transform todt0 tblC2).1.cols = column_order := by
  have h : buildAdset todt0 rowC2 =
      .ok ((recordsOf (transformOutcomes todt0 tblC2)).getD 0 []) := rfl
  exact ⟨(fbm_C2_amended todt0 rowC2 _ h).1, (fbm_C2_amended todt0 rowC2 _ h).2.1 tblC2⟩

/-- Claim C7: on an adset-level row carrying both a nonempty campaign budget
and a nonempty ad-set budget, the built record maps the campaign budget to
the empty string and the ad-set budget to the validated ad-set number. -/
theorem fbm_C7 (todt : ToDatetime) (i : Nat) (r : Row) (rec : Record)
    (hlv : levelOf r = "adset")
    (hcb : campaignBudgetRaw r ≠ "")
    (hab : adsetBudgetStr r ≠ "")
    (hok : rowOutcome todt i r = .built rec) :
    List.lookup "Campaign Daily Budget" rec = some "" ∧
    ∃ v, _pos_number (some (adsetBudgetStr r)) true = .ok v ∧
      List.lookup "Ad Set Daily Budget" rec = some v := by
  have hb : buildAdset todt r = .ok rec := by
    simp only [rowOutcome, hlv, buildRow] at hok
    simp at hok
    cases hres : buildAdset todt r with
    | ok a =>
      rw [hres] at hok
      cases hok
      rfl
    | error m =>
      rw [hres] at hok
      cases hok
  obtain ⟨objective, ages, linkUtm, cta, cS, bT, bS, cB, cSt, cSp, aS, aB, aSt, aSp, g, adS,
    _hobj, _ha, _hu, _hc, _h1, _h2, _h3, hcB, _h4, _h5, _h6, haB, _h7, _h8, _h9, _h10, hrec⟩ :=
    buildAdset_ok_elim hb
  have hz : adsetCampaignBudget r = "" := by
    unfold adsetCampaignBudget
    rw [if_pos ⟨hcb, hab⟩]
  have hcB2 : cB = "" := by
    unfold adsetCampaignBudgetVal at hcB
    rw [hz, if_neg (by simp)] at hcB
    exact (expure_ok.mp hcB).symm
  have haB2 : _pos_number (some (adsetBudgetStr r)) true = .ok aB := by
    unfold adsetBudgetVal at haB
    rw [if_pos hab] at haB
    exact haB
  subst hrec
  constructor
  · rw [show List.lookup "Campaign Daily Budget" (adsetRecord r objective ages linkUtm cta
      (_default_opt_goal objective (rget r "Optimisation Goal" "")) cS bT bS cB
      cSt cSp aS aB aSt aSp g adS) = some cB from rfl, hcB2]
  · exact ⟨aB, haB2, by rw [show List.lookup "Ad Set Daily Budget" (adsetRecord r objective ages
      linkUtm cta (_default_opt_goal objective (rget r "Optimisation Goal" "")) cS bT bS cB
      cSt cSp aS aB aSt aSp g adS) = some aB from rfl]⟩

/-- Witness for C7 at a concrete adset row with Campaign Daily Budget 100 and
Ad Set Daily Budget 50: the record carries an empty campaign budget and the
validated amount 50. -/
theorem fbm_C7_witness :
    List.lookup "Campaign Daily Budget" recC7 = some "" ∧
    ∃ v, _pos_number (some "50") true = .ok v ∧
      List.lookup "Ad Set Daily Budget" recC7 = some v :=
  ⟨(fbm_C7 todt0 0 rowC7 recC7 (by decide) (by decide) (by decide) rfl).1,
   (fbm_C7 todt0 0 rowC7 recC7 (by decide) (by decide) (by decide) rfl).2⟩

/-- Counterexample to C6 as stated: with min 70, max 70 and no special
category the call succeeds and returns the pair (70, 65), whose minimum 70
lies outside the interval [13, 65] into which the claim says both bounds are
clamped. -/
theorem fbm_C6_counterexample :
    _age_pair (some "70") (some "70") (some "") = .ok ("70", "65") ∧
    ¬((13 : Int) ≤ 70 ∧ (70 : Int) ≤ 65) := by
  constructor
  · rfl
  · decide

/-- Claim C6 amended: both bounds NaN gives the defaults; for a string flag
the effective minimum is 13 exactly when the flag strips to nothing, else 18;
otherwise with parsed bounds the call errors when min exceeds max and else
returns the min raised to at least the effective minimum and the max capped
at 65 — the min is never capped from above, so min 70 with max 70 survives as
70. -/
theorem fbm_C6_amended :
    (∀ sp : Cell, _age_pair none none sp = .ok (toString (age_min_allowed sp), "65")) ∧
    (∀ s : String, age_min_allowed (some s) = if pyStrip s = "" then 13 else 18) ∧
    (∀ mnc mxc sp : Cell, ∀ mn mx : Int,
      ¬(mnc = none ∧ mxc = none) →
      age_parse mnc (age_min_allowed sp) = some mn →
      age_parse mxc 65 = some mx →
      _age_pair mnc mxc sp =
        if mx < mn then .error (ageMsg mnc mxc (age_min_allowed sp))
        else .ok (toString (max (age_min_allowed sp) mn), toString (min 65 mx))) := by
  refine ⟨fun sp => rfl, ?_, ?_⟩
  · intro s
    by_cases hp : pyStrip s = ""
    · rw [if_pos hp]
      simp [age_min_allowed, pyTruthy, pyStr, hp]
    · rw [if_neg hp]
      have hs : s ≠ "" := by
        intro h
        subst h
        exact hp rfl
      simp [age_min_allowed, pyTruthy, pyStr, hp, hs]
  · intro mnc mxc sp mn mx hnb hpm hpx
    simp only [_age_pair]
    rw [if_neg hnb, hpm, hpx]
    dsimp only
    have h1 : (if mn < age_min_allowed sp then age_min_allowed sp else mn) =
        max (age_min_allowed sp) mn := by
      split_ifs with h
      · exact (max_eq_left (le_of_lt h)).symm
      · exact (max_eq_right (le_of_not_lt h)).symm
    have h2 : (if (65 : Int) < mx then (65 : Int) else mx) = min 65 mx := by
      split_ifs with h
      · exact (min_eq_left (le_of_lt h)).symm
      · exact (min_eq_right (le_of_not_lt h)).symm
    rw [h1, h2]

/-- Witness for the amended C6 at the examples of the claim: min 10 and max
70 without a special category give (13, 65), and min 10 with special category
CREDIT gives minimum 18. -/
theorem fbm_C6_witness :
    _age_pair (some "10") (some "70") (some "") = .ok ("13", "65") ∧
    _age_pair (some "10") none (some "CREDIT") = .ok ("18", "65") := by
  constructor
  · have h := fbm_C6_amended.2.2 (some "10") (some "70") (some "") 10 70
      (by simp) (by decide) (by decide)
    rw [h]
    rfl
  · have h := fbm_C6_amended.2.2 (some "10") none (some "CREDIT") 10 65
      (by simp) (by decide) (by decide)
    rw [h]
    rfl

theorem enum_ws_error (s : String) (allowed : List String) (field dflt : String)
    (hne : s ≠ "") (hws : pyStrip s = "") (hnin : "" ∉ allowed) :
    _enum (some s) allowed field dflt = .error (enumMsg field "" allowed) := by
  simp only [_enum]
  rw [if_neg (by simp [hne])]
  rw [show pyStr (some s) = s from rfl, hws]
  rw [if_neg (by simpa using hnin)]

/-- Counterexample to C10 as stated: an adset row whose Call to Action cell
is whitespace-only is NOT dropped: it builds a record whose call to action is
the objective default and the error table stays empty. -/
theorem fbm_C10_counterexample :
    rowOutcome todt0 0 rowC10 = .built ((recordsOf (transformOutcomes todt0 tblC10)).getD 0 []) ∧
    List.lookup "Call to Action" ((recordsOf (transformOutcomes todt0 tblC10)).getD 0 []) =
      some "SIGN_UP" ∧
    (transform todt0 tblC10).2 = [] := by
  refine ⟨rfl, by decide, by decide⟩

/-- Claim C10 amended: for every enum-validated field except the call to
action (campaign status, campaign objective, buying type, bid strategy,
ad-set run status, ad status, each on the row levels that validate it), a
whitespace-only nonempty cell is not treated as blank: the validator strips
it to the empty string, finds it outside the allowed set and errors, and the
row is dropped with an error record tagged with its level.  The call to
action however treats a whitespace-only cell as blank and falls back to the
objective default. -/
theorem fbm_C10_amended (todt : ToDatetime) (i : Nat) (r : Row) (s : String)
    (hne : s ≠ "") (hws : pyStrip s = "")
    (hyp : (levelOf r = "campaign" ∧
             (List.lookup "Campaign Status" r = some (some s) ∨
              List.lookup "Campaign Objective" r = some (some s) ∨
              List.lookup "Buying Type" r = some (some s) ∨
              List.lookup "Campaign Bid Strategy" r = some (some s))) ∨
           (levelOf r = "adset" ∧
             (List.lookup "Campaign Status" r = some (some s) ∨
              List.lookup "Campaign Objective" r = some (some s) ∨
              List.lookup "Buying Type" r = some (some s) ∨
              List.lookup "Campaign Bid Strategy" r = some (some s) ∨
              List.lookup "Ad Set Run Status" r = some (some s) ∨
              List.lookup "Ad Status" r = some (some s)))) :
    (∀ allowed field dflt, "" ∉ allowed →
      _enum (some s) allowed field dflt = .error (enumMsg field "" allowed)) ∧
    (∃ msg, rowOutcome todt i r = .failed ⟨i + 2, levelOf r, msg⟩) ∧
    (∀ objective : String, _default_cta objective (some s) = .ok (objDefaultCta objective)) := by
  refine ⟨fun allowed field dflt h => enum_ws_error s allowed field dflt hne hws h, ?_, ?_⟩
  · have hfail : ∀ rec, buildRow todt (levelOf r) r ≠ .ok rec := by
      intro rec hok
      rcases hyp with ⟨hlvl, hf⟩ | ⟨hlvl, hf⟩
      · rw [hlvl] at hok
        simp only [buildRow, if_pos] at hok
        obtain ⟨objective, cS, bT, bS, cB, cSt, cSp, hobj, hcS, hbT, hbS, _, _, _, _⟩ :=
          buildCampaign_ok_elim hok
        rcases hf with hf | hf | hf | hf
        · rw [show rget r "Campaign Status" "ACTIVE" = some s from by unfold rget; rw [hf]; rfl,
            enum_ws_error s _ _ _ hne hws (by decide)] at hcS
          cases hcS
        · rw [show rget r "Campaign Objective" "" = some s from by unfold rget; rw [hf]; rfl,
            enum_ws_error s _ _ _ hne hws (by decide)] at hobj
          cases hobj
        · rw [show rget r "Buying Type" "AUCTION" = some s from by unfold rget; rw [hf]; rfl,
            enum_ws_error s _ _ _ hne hws (by decide)] at hbT
          cases hbT
        · rw [show rget r "Campaign Bid Strategy" "Lowest cost" = some s from by
            unfold rget; rw [hf]; rfl,
            enum_ws_error s _ _ _ hne hws (by decide)] at hbS
          cases hbS
      · rw [hlvl] at hok
        simp only [buildRow] at hok
        rw [if_neg (by decide)] at hok
        obtain ⟨objective, ages, linkUtm, cta, cS, bT, bS, cB, cSt, cSp, aS, aB, aSt, aSp, g,
          adS, hobj, _, _, _, hcS, hbT, hbS, _, _, _, haS, _, _, _, _, hadS, _⟩ :=
          buildAdset_ok_elim hok
        rcases hf with hf | hf | hf | hf | hf | hf
        · rw [show rget r "Campaign Status" "ACTIVE" = some s from by unfold rget; rw [hf]; rfl,
            enum_ws_error s _ _ _ hne hws (by decide)] at hcS
          cases hcS
        · rw [show rget r "Campaign Objective" "" = some s from by unfold rget; rw [hf]; rfl,
            enum_ws_error s _ _ _ hne hws (by decide)] at hobj
          cases hobj
        · rw [show rget r "Buying Type" "AUCTION" = some s from by unfold rget; rw [hf]; rfl,
            enum_ws_error s _ _ _ hne hws (by decide)] at hbT
          cases hbT
        · rw [show rget r "Campaign Bid Strategy" "Lowest cost" = some s from by
            unfold rget; rw [hf]; rfl,
            enum_ws_error s _ _ _ hne hws (by decide)] at hbS
          cases hbS
        · rw [show rget r "Ad Set Run Status" "ACTIVE" = some s from by unfold rget; rw [hf]; rfl,
            enum_ws_error s _ _ _ hne hws (by decide)] at haS
          cases haS
        · rw [show rget r "Ad Status" "ACTIVE" = some s from by unfold rget; rw [hf]; rfl,
            enum_ws_error s _ _ _ hne hws (by decide)] at hadS
          cases hadS
    have hlv : levelOf r = "campaign" ∨ levelOf r = "adset" := by
      rcases hyp with ⟨hlvl, _⟩ | ⟨hlvl, _⟩
      · exact Or.inl hlvl
      · exact Or.inr hlvl
    cases hres : buildRow todt (levelOf r) r with
    | ok a => exact absurd hres (hfail a)
    | error m =>
      refine ⟨m, ?_⟩
      simp only [rowOutcome]
      rw [if_pos hlv, hres]
  · intro objective
    simp only [_default_cta]
    rw [if_neg (by simp [pyStr, hws])]

/-- Witness for the amended C10: a campaign row whose Campaign Status cell is
whitespace-only is dropped with an error record tagged campaign. -/
theorem fbm_C10_witness :
    ∃ msg, rowOutcome todt0 0 rowC10w = .failed ⟨2, "campaign", msg⟩ :=
  (fbm_C10_amended todt0 0 rowC10w "  " (by decide) (by decide)
    (Or.inl ⟨by decide, Or.inl (by decide)⟩)).2.1

theorem colIdx?_lt {cols : List String} {c : String} {i : Nat}
    (h : colIdx? cols c = some i) : i < cols.length := by
  induction cols generalizing i with
  | nil => cases h
  | cons k ks ih =>
    simp only [colIdx?] at h
    split at h
    · cases h
      simp
    · cases hk : colIdx? ks c with
      | none =>
        rw [hk] at h
        cases h
      | some j =>
        rw [hk] at h
        simp at h
        have := ih hk
        simp only [List.length_cons]
        omega

theorem colIdx?_of_mem {cols : List String} {c : String} (h : c ∈ cols) :
    ∃ i, colIdx? cols c = some i := by
  induction cols with
  | nil => cases h
  | cons k ks ih =>
    by_cases hk : k = c
    · exact ⟨0, by simp [colIdx?, hk]⟩
    · have hm : c ∈ ks := by
        rcases List.mem_cons.mp h with h1 | h1
        · exact absurd h1.symm hk
        · exact h1
      obtain ⟨j, hj⟩ := ih hm
      exact ⟨j + 1, by simp [colIdx?, hk, hj]⟩

theorem colIdx?_append_mem {cols : List String} {c : String} (l2 : List String) (h : c ∈ cols) :
    colIdx? (cols ++ l2) c = colIdx? cols c := by
  induction cols with
  | nil => cases h
  | cons k ks ih =>
    by_cases hk : k = c
    · simp [colIdx?, hk]
    · have hm : c ∈ ks := by
        rcases List.mem_cons.mp h with h1 | h1
        · exact absurd h1.symm hk
        · exact h1
      simp [colIdx?, hk, ih hm]

theorem colIdx?_append_not_mem {cols : List String} {c : String} (l2 : List String)
    (h : c ∉ cols) :
    colIdx? (cols ++ l2) c = (colIdx? l2 c).map (cols.length + ·) := by
  induction cols with
  | nil => simp
  | cons k ks ih =>
    have hk : k ≠ c := fun hh => h (by simp [hh])
    have hm : c ∉ ks := fun hh => h (by simp [hh])
    simp only [List.cons_append, colIdx?, hk, if_false, List.append_eq]
    rw [ih hm]
    cases hx : colIdx? l2 c with
    | none => simp
    | some j =>
      simp only [Option.map_some', List.length_cons]
      congr 1
      omega

theorem cellAtP_map {cols : List String} {c : String} (f : String → Cell) (h : c ∈ cols) :
    cellAtP cols (cols.map f) c = f c := by
  induction cols with
  | nil => cases h
  | cons k ks ih =>
    by_cases hk : k = c
    · subst hk
      simp [cellAtP, colIdx?]
    · have hm : c ∈ ks := by
        rcases List.mem_cons.mp h with h1 | h1
        · exact absurd h1.symm hk
        · exact h1
      have hIH := ih hm
      simp only [cellAtP, colIdx?, hk, if_false] at hIH ⊢
      cases hj : colIdx? ks c with
      | none =>
        obtain ⟨j, hj2⟩ := colIdx?_of_mem hm
        rw [hj2] at hj
        cases hj
      | some j =>
        rw [hj] at hIH
        simp only [Option.map_some, List.map_cons, List.getElem?_cons_succ]
        simpa using hIH

theorem cellAtP_append_left {cols add : List String} {row ext : List Cell} {c : String}
    (h : c ∈ cols) (hlen : cols.length ≤ row.length) :
    cellAtP (cols ++ add) (row ++ ext) c = cellAtP cols row c := by
  unfold cellAtP
  rw [colIdx?_append_mem add h]
  obtain ⟨j, hj⟩ := colIdx?_of_mem h
  rw [hj]
  have hlt : j < cols.length := colIdx?_lt hj
  dsimp only
  rw [List.getElem?_append, if_pos (by omega)]

theorem cellAtP_append_blank {cols add : List String} {row : List Cell} {c : String}
    (h : c ∉ cols) (hin : c ∈ add) (hlen : row.length = cols.length) :
    cellAtP (cols ++ add) (row ++ List.replicate add.length (some "")) c = some "" := by
  unfold cellAtP
  rw [colIdx?_append_not_mem add h]
  obtain ⟨k, hk⟩ := colIdx?_of_mem hin
  rw [hk]
  have hklt : k < add.length := colIdx?_lt hk
  simp only [Option.map_some']
  rw [List.getElem?_append, if_neg (by omega)]
  rw [List.getElem?_replicate]
  have hidx : cols.length + k - row.length = k := by omega
  rw [hidx, if_pos hklt]
  rfl

theorem mem_dedupe_fold (l : List String) (acc : List String) (c : String) :
    c ∈ l.foldl (fun a k => if k ∈ a then a else a ++ [k]) acc ↔ c ∈ acc ∨ c ∈ l := by
  induction l generalizing acc with
  | nil => simp
  | cons k l ih =>
    simp only [List.foldl_cons, ih, List.mem_cons]
    by_cases hk : k ∈ acc
    · rw [if_pos hk]
      constructor
      · rintro (h1 | h1)
        · exact Or.inl h1
        · exact Or.inr (Or.inr h1)
      · rintro (h1 | h1 | h1)
        · exact Or.inl h1
        · exact Or.inl (h1 ▸ hk)
        · exact Or.inr h1
    · rw [if_neg hk]
      simp only [List.mem_append, List.mem_singleton]
      tauto

theorem mem_dfColumns {recs : List Record} {c : String} :
    c ∈ dfColumns recs ↔ ∃ rec ∈ recs, c ∈ rec.map Prod.fst := by
  unfold dfColumns
  rw [mem_dedupe_fold]
  simp [List.mem_flatMap]

theorem lookup_none_iff {β : Type} (l : List (String × β)) (c : String) :
    List.lookup c l = none ↔ c ∉ l.map Prod.fst := by
  induction l with
  | nil => simp
  | cons p l ih =>
    obtain ⟨k, v⟩ := p
    by_cases hk : c = k
    · subst hk
      simp [List.lookup]
    · simp only [List.lookup, List.map_cons, List.mem_cons]
      rw [show (c == k) = false from by simpa using hk]
      simp only [ih]
      constructor
      · intro h1 h2
        rcases h2 with h2 | h2
        · exact hk h2
        · exact h1 h2
      · intro h1 h2
        exact h1 (Or.inr h2)

theorem ensure_fold (cs : List String) (p : PTable) :
    ∃ added : List String,
      cs.foldl (fun acc c => if c ∈ acc.cols then acc else addBlankCol acc c) p =
        ⟨p.cols ++ added, p.rows.map (fun row => row ++ List.replicate added.length (some ""))⟩ ∧
      ∀ c ∈ cs, c ∈ p.cols ++ added := by
  induction cs generalizing p with
  | nil =>
    refine ⟨[], ?_, by simp⟩
    cases p
    simp
  | cons c cs ih =>
    by_cases hc : c ∈ p.cols
    · rw [List.foldl_cons, if_pos hc]
      obtain ⟨added, h1, h2⟩ := ih p
      refine ⟨added, h1, ?_⟩
      intro x hx
      rcases List.mem_cons.mp hx with h | h
      · subst h
        exact List.mem_append_left _ hc
      · exact h2 x h
    · rw [List.foldl_cons, if_neg hc]
      obtain ⟨added, h1, h2⟩ := ih (addBlankCol p c)
      refine ⟨c :: added, ?_, ?_⟩
      · rw [h1]
        show PTable.mk ((p.cols ++ [c]) ++ added) _ = _
        congr 1
        · simp
        · show (p.rows.map (fun row => row ++ [some ""])).map
            (fun row => row ++ List.replicate added.length (some "")) = _
          rw [List.map_map]
          apply List.map_congr_left
          intro row _
          show (row ++ [some ""]) ++ List.replicate added.length (some "") = _
          rw [List.append_assoc]
          rfl
      · intro x hx
        rcases List.mem_cons.mp hx with h | h
        · subst h
          simp
        · have h3 := h2 x h
          show x ∈ p.cols ++ c :: added
          have hcols : (addBlankCol p c).cols = p.cols ++ [c] := rfl
          rw [hcols] at h3
          simp only [List.mem_append, List.mem_cons, List.mem_singleton] at h3 ⊢
          tauto

theorem map_getD_of_lt {α β : Type} (f : α → β) (l : List α) (i : Nat) (hi : i < l.length)
    (d : α) (d2 : β) : (l.map f).getD i d2 = f (l.getD i d) := by
  rw [List.getD_eq_getElem _ _ (by simpa using hi), List.getElem_map,
    List.getD_eq_getElem _ _ hi]


theorem assemble_cell (recs : List Record) (c : String) (i : Nat)
    (hc : c ∈ column_order) (hi : i < recs.length) :
    tableCell (assembleOutput recs) i c =
      (if c ∈ dfColumns recs then List.lookup c (recs.getD i []) else some "") := by
  obtain ⟨added, hfold, hmem⟩ := ensure_fold column_order (pdDataFrame recs)
  have hq : ensureColumns (pdDataFrame recs) = PTable.mk (dfColumns recs ++ added)
      (recs.map (fun rec => (dfColumns recs).map (dfCell rec) ++
        List.replicate added.length (some ""))) := by
    unfold ensureColumns
    rw [hfold]
    have hcols : (pdDataFrame recs).cols = dfColumns recs := rfl
    have hrows : (pdDataFrame recs).rows =
        recs.map (fun rec => (dfColumns recs).map (dfCell rec)) := rfl
    rw [hcols, hrows, List.map_map]
    rfl
  have h0 : tableCell (assembleOutput recs) i c =
      cellAtP column_order
        ((selectCols (ensureColumns (pdDataFrame recs)) column_order).rows.getD i []) c := rfl
  rw [h0, hq]
  have h1 : (selectCols (PTable.mk (dfColumns recs ++ added)
      (recs.map (fun rec => (dfColumns recs).map (dfCell rec) ++
        List.replicate added.length (some "")))) column_order).rows =
      recs.map (fun rec => column_order.map (fun c2 =>
        cellAtP (dfColumns recs ++ added)
          ((dfColumns recs).map (dfCell rec) ++ List.replicate added.length (some "")) c2)) := by
    show (recs.map _).map _ = _
    rw [List.map_map]
    rfl
  rw [h1, map_getD_of_lt _ _ _ hi []]
  rw [cellAtP_map _ hc]
  by_cases hm : c ∈ dfColumns recs
  · rw [if_pos hm]
    rw [cellAtP_append_left hm (by simp)]
    rw [cellAtP_map _ hm]
    rfl
  · rw [if_neg hm]
    have hadd : c ∈ added := by
      rcases List.mem_append.mp (hmem c hc) with h | h
      · exact absurd h hm
      · exact h
    exact cellAtP_append_blank hm hadd (by simp)

theorem ensureColumns_rows_length (p : PTable) :
    (ensureColumns p).rows.length = p.rows.length := by
  obtain ⟨added, hfold, _⟩ := ensure_fold column_order p
  have h : ensureColumns p = PTable.mk (p.cols ++ added)
      (p.rows.map (fun row => row ++ List.replicate added.length (some ""))) := by
    unfold ensureColumns
    rw [hfold]
  rw [h]
  simp

set_option maxRecDepth 40000

/-- Counterexample to C3 as stated: in a table with a campaign row followed
by an adset row, the campaign record is successfully built without the ad-set
fields, and its Ad Set Name cell in the output table is missing (NaN), not
the empty string. -/
theorem fbm_C3_counterexample :
    rowOutcome todt0 0 rowC3a = .built ((recordsOf (transformOutcomes todt0 tblC3)).getD 0 []) ∧
    List.lookup "Ad Set Name" ((recordsOf (transformOutcomes todt0 tblC3)).getD 0 []) = none ∧
    tableCell (transform todt0 tblC3).1 0 "Ad Set Name" = none ∧
    (none : Cell) ≠ some "" := by
  refine ⟨rfl, by decide, by decide, by decide⟩

/-- Claim C3 amended: for a canonical output column, the cell of row i is
the string stored by the i-th built record when any record in the table
supplies that column, and the empty string only when the column is absent
from every record; a record that does not set a column supplied by another
record therefore yields a missing (NaN) cell, not an empty string. -/
theorem fbm_C3_amended (todt : ToDatetime) (t : Table) (c : String) (i : Nat)
    (hc : c ∈ column_order)
    (hi : i < (recordsOf (transformOutcomes todt t)).length) :
    tableCell (transform todt t).1 i c =
      (if c ∈ dfColumns (recordsOf (transformOutcomes todt t)) then
        List.lookup c ((recordsOf (transformOutcomes todt t)).getD i [])
      else some "") :=
  assemble_cell (recordsOf (transformOutcomes todt t)) c i hc hi

/-- Witness for the amended C3 at a concrete mixed table. -/
theorem fbm_C3_witness :
    tableCell (transform todt0 tblC3).1 0 "Ad Set Name" =
      (if "Ad Set Name" ∈ dfColumns (recordsOf (transformOutcomes todt0 tblC3)) then
        List.lookup "Ad Set Name" ((recordsOf (transformOutcomes todt0 tblC3)).getD 0 [])
      else some "") ∧
    "Ad Set Name" ∈ dfColumns (recordsOf (transformOutcomes todt0 tblC3)) ∧
    List.lookup "Ad Set Name" ((recordsOf (transformOutcomes todt0 tblC3)).getD 0 []) = none :=
  ⟨fbm_C3_amended todt0 tblC3 "Ad Set Name" 0 (by decide) (by decide), by decide, by decide⟩

/-- Counterexample to C8 as stated: the output table does have exactly the
canonical columns with the extra input column dropped and the run does not
error, but the Age Min cell of the campaign-level record (a column absent
from that record yet present in the adset record) is missing (NaN), not
filled with the empty string. -/
theorem fbm_C8_counterexample :
    (transform todt0 tblC8).1.cols = column_order ∧
    "Internal Notes" ∉ (transform todt0 tblC8).1.cols ∧
    List.lookup "Age Min" ((recordsOf (transformOutcomes todt0 tblC8)).getD 1 []) = none ∧
    tableCell (transform todt0 tblC8).1 1 "Age Min" = none ∧
    (none : Cell) ≠ some "" := by
  refine ⟨rfl, by decide, by decide, by decide, by decide⟩

theorem transform_fst (todt : ToDatetime) (t : Table) :
    (transform todt t).1 = assembleOutput (recordsOf (transformOutcomes todt t)) := rfl

theorem pdDataFrame_rows_length (recs : List Record) :
    (pdDataFrame recs).rows.length = recs.length := by
  unfold pdDataFrame
  dsimp only
  rw [List.length_map]

theorem assembleOutput_rows_length (recs : List Record) :
    (assembleOutput recs).rows.length = recs.length := by
  unfold assembleOutput selectCols
  dsimp only
  rw [List.length_map, ensureColumns_rows_length, pdDataFrame_rows_length]

/-- Claim C8 amended: for every input table the output frame has exactly the
canonical columns in canonical order, one row per built record, columns
outside the canonical set never appear, and a canonical column absent from
every built record is filled with empty strings; a column absent from only
some records instead leaves missing (NaN) cells in those rows. -/
theorem fbm_C8_amended (todt : ToDatetime) (t : Table) :
    (transform todt t).1.cols = column_order ∧
    (transform todt t).1.rows.length = (recordsOf (transformOutcomes todt t)).length ∧
    (∀ c, c ∉ column_order → c ∉ (transform todt t).1.cols) ∧
    (∀ c, c ∈ column_order →
      (∀ rec ∈ recordsOf (transformOutcomes todt t), List.lookup c rec = none) →
      ∀ i, i < (recordsOf (transformOutcomes todt t)).length →
        tableCell (transform todt t).1 i c = some "") := by
  refine ⟨rfl, ?_, fun c h => h, ?_⟩
  · rw [transform_fst, assembleOutput_rows_length]
  · intro c hc hnone i hi
    have hnm : c ∉ dfColumns (recordsOf (transformOutcomes todt t)) := by
      intro hmm
      obtain ⟨rec, hrec, hkey⟩ := mem_dfColumns.mp hmm
      exact (lookup_none_iff rec c).mp (hnone rec hrec) hkey
    have h := assemble_cell (recordsOf (transformOutcomes todt t)) c i hc hi
    rw [transform_fst, h, if_neg hnm]

/-- Witness for the amended C8 at a concrete campaign-only table: the ad-set
columns are filled blank and the header list is canonical. -/
theorem fbm_C8_witness :
    tableCell
      (transform todt0 (Table.mk ["Input Level", "Campaign Objective"]
        [[("Input Level", some "campaign"), ("Campaign Objective", some "Reach")]])).1
      0 "Ad Set Name" = some "" ∧
    (transform todt0 (Table.mk ["Input Level", "Campaign Objective"]
      [[("Input Level", some "campaign"), ("Campaign Objective", some "Reach")]])).1.cols =
      column_order :=
  ⟨(fbm_C8_amended todt0 _).2.2.2 "Ad Set Name" (by decide) (by decide) 0 (by decide),
   (fbm_C8_amended todt0 _).1⟩

theorem setKey_keys (r : Row) (c : String) (v : Cell) :
    (setKey r c v).map Prod.fst = r.map Prod.fst := by
  induction r with
  | nil => rfl
  | cons p r ih =>
    obtain ⟨k, w⟩ := p
    unfold setKey
    by_cases hk : k = c
    · rw [if_pos hk]
      simp [hk]
    · rw [if_neg hk]
      simp [ih]

theorem lookup_setKey_ne (r : Row) {b c : String} (v : Cell) (h : b ≠ c) :
    List.lookup b (setKey r c v) = List.lookup b r := by
  induction r with
  | nil => rfl
  | cons p r ih =>
    obtain ⟨k, w⟩ := p
    unfold setKey
    by_cases hk : k = c
    · rw [if_pos hk]
      subst hk
      simp [List.lookup, show (b == k) = false from by simpa using h]
    · rw [if_neg hk]
      by_cases hbk : b = k
      · subst hbk
        simp [List.lookup]
      · simp [List.lookup, show (b == k) = false from by simpa using hbk, ih]

theorem lookup_setKey_self (r : Row) {c : String} (v : Cell) (h : c ∈ r.map Prod.fst) :
    List.lookup c (setKey r c v) = some v := by
  induction r with
  | nil => simp at h
  | cons p r ih =>
    obtain ⟨k, w⟩ := p
    unfold setKey
    by_cases hk : k = c
    · rw [if_pos hk]
      simp [List.lookup]
    · rw [if_neg hk]
      have hm : c ∈ r.map Prod.fst := by
        simp only [List.map_cons, List.mem_cons] at h
        rcases h with h | h
        · exact absurd h.symm hk
        · exact h
      have hck : (c == k) = false := by
        simpa using fun hh => hk hh.symm
      simp [List.lookup, hck, ih hm]

theorem ffillColumnGo_cells (c : String) (last : Cell) (rows : List Row)
    (hkeys : ∀ r ∈ rows, c ∈ r.map Prod.fst) :
    (ffillColumnGo c last rows).map (fun r => getCellJ r c) =
      ffillCellsGo last (rows.map (fun r => getCellJ r c)) := by
  induction rows generalizing last with
  | nil => rfl
  | cons r rs ih =>
    have hc : c ∈ r.map Prod.fst := hkeys r (List.mem_cons_self _ _)
    have hrest : ∀ x ∈ rs, c ∈ x.map Prod.fst := fun x hx => hkeys x (List.mem_cons_of_mem _ hx)
    unfold ffillColumnGo
    cases hl : List.lookup c r with
    | none => exact absurd ((lookup_none_iff r c).mp hl) (fun hh => hh hc)
    | some cell =>
      cases cell with
      | none =>
        simp only [List.map_cons]
        rw [show getCellJ (setKey r c last) c = last from by
          unfold getCellJ
          rw [lookup_setKey_self r last hc]
          rfl]
        rw [show getCellJ r c = none from by
          unfold getCellJ
          rw [hl]
          rfl]
        show _ = ffillCellsGo last (none :: rs.map (fun x => getCellJ x c))
        unfold ffillCellsGo
        rw [ih last hrest]
      | some v =>
        simp only [List.map_cons]
        rw [show getCellJ r c = some v from by
          unfold getCellJ
          rw [hl]
          rfl]
        show _ = ffillCellsGo last (some v :: rs.map (fun x => getCellJ x c))
        unfold ffillCellsGo
        rw [ih (some v) hrest]

theorem ffillColumnGo_other {c b : String} (hne : b ≠ c) (last : Cell) (rows : List Row) :
    (ffillColumnGo c last rows).map (fun r => getCellJ r b) =
      rows.map (fun r => getCellJ r b) := by
  induction rows generalizing last with
  | nil => rfl
  | cons r rs ih =>
    unfold ffillColumnGo
    cases hl : List.lookup c r with
    | none =>
      simp only [List.map_cons]
      rw [ih]
    | some cell =>
      cases cell with
      | none =>
        simp only [List.map_cons]
        rw [show getCellJ (setKey r c last) b = getCellJ r b from by
          unfold getCellJ
          rw [lookup_setKey_ne r last hne]]
        rw [ih]
      | some v =>
        simp only [List.map_cons]
        rw [ih]

theorem ffillColumnGo_keys (c : String) (last : Cell) (rows : List Row) :
    (ffillColumnGo c last rows).map (fun r => r.map Prod.fst) =
      rows.map (fun r => r.map Prod.fst) := by
  induction rows generalizing last with
  | nil => rfl
  | cons r rs ih =>
    unfold ffillColumnGo
    cases hl : List.lookup c r with
    | none =>
      simp only [List.map_cons]
      rw [ih]
    | some cell =>
      cases cell with
      | none =>
        simp only [List.map_cons]
        rw [setKey_keys, ih]
      | some v =>
        simp only [List.map_cons]
        rw [ih]

theorem fold_ffill_other (cs : List String) (tcols : List String) {b : String} (hb : b ∉ cs)
    (rows : List Row) :
    ((cs.foldl (fun rs c => if c ∈ tcols then ffillColumn c rs else rs) rows).map
      (fun r => getCellJ r b)) = rows.map (fun r => getCellJ r b) := by
  induction cs generalizing rows with
  | nil => rfl
  | cons c cs ih =>
    have hb2 : b ∉ cs := fun h => hb (List.mem_cons_of_mem _ h)
    have hbc : b ≠ c := fun h => hb (h ▸ List.mem_cons_self _ _)
    rw [List.foldl_cons]
    by_cases hc : c ∈ tcols
    · rw [if_pos hc, ih hb2]
      exact ffillColumnGo_other hbc none rows
    · rw [if_neg hc, ih hb2]

theorem fold_ffill_keys (cs : List String) (tcols : List String) (rows : List Row) :
    ((cs.foldl (fun rs c => if c ∈ tcols then ffillColumn c rs else rs) rows).map
      (fun r => r.map Prod.fst)) = rows.map (fun r => r.map Prod.fst) := by
  induction cs generalizing rows with
  | nil => rfl
  | cons c cs ih =>
    rw [List.foldl_cons]
    by_cases hc : c ∈ tcols
    · rw [if_pos hc, ih]
      exact ffillColumnGo_keys c none rows
    · rw [if_neg hc, ih]

theorem fold_ffill_main (cs : List String) (tcols : List String) (col : String)
    (hnd : cs.Nodup) (hcol : col ∈ cs) (hin : col ∈ tcols) (rows : List Row)
    (hkeys : ∀ r ∈ rows, col ∈ r.map Prod.fst) :
    ((cs.foldl (fun rs c => if c ∈ tcols then ffillColumn c rs else rs) rows).map
      (fun r => getCellJ r col)) =
      ffillCellsGo none (rows.map (fun r => getCellJ r col)) := by
  induction cs generalizing rows with
  | nil => cases hcol
  | cons c cs ih =>
    rw [List.foldl_cons]
    rcases List.mem_cons.mp hcol with heq | hmem
    · subst heq
      rw [if_pos hin]
      have hnotin : col ∉ cs := (List.nodup_cons.mp hnd).1
      rw [fold_ffill_other cs tcols hnotin (ffillColumn col rows)]
      exact ffillColumnGo_cells col none rows hkeys
    · have hnd2 := (List.nodup_cons.mp hnd).2
      by_cases hc : c ∈ tcols
      · rw [if_pos hc]
        have hne : col ≠ c := fun h => (List.nodup_cons.mp hnd).1 (h ▸ hmem)
        have hkeys2 : ∀ r2 ∈ ffillColumn c rows, col ∈ r2.map Prod.fst := by
          intro r2 hr2
          have hmm : r2.map Prod.fst ∈ (ffillColumn c rows).map (fun r => r.map Prod.fst) :=
            List.mem_map_of_mem _ hr2
          rw [show (ffillColumn c rows).map (fun r => r.map Prod.fst) =
            rows.map (fun r => r.map Prod.fst) from ffillColumnGo_keys c none rows] at hmm
          obtain ⟨r3, hr3, heq3⟩ := List.mem_map.mp hmm
          rw [← heq3]
          exact hkeys r3 hr3
        rw [ih hnd2 hmem (ffillColumn c rows) hkeys2]
        rw [show (ffillColumn c rows).map (fun r => getCellJ r col) =
          rows.map (fun r => getCellJ r col) from ffillColumnGo_other hne none rows]
      · rw [if_neg hc]
        exact ih hnd2 hmem rows hkeys

theorem ffillCellsGo_getD (seed : Cell) (l : List Cell) (i : Nat) (hi : i < l.length) :
    (ffillCellsGo seed l).getD i none = lastSomeFrom seed (l.take (i + 1)) := by
  induction l generalizing seed i with
  | nil => simp at hi
  | cons x xs ih =>
    cases x with
    | some v =>
      cases i with
      | zero => rfl
      | succ j =>
        show (ffillCellsGo (some v) xs).getD j none = _
        rw [ih (some v) j (by simpa using hi)]
        rfl
    | none =>
      cases i with
      | zero => rfl
      | succ j =>
        show (ffillCellsGo seed xs).getD j none = _
        rw [ih seed j (by simpa using hi)]
        rfl

/-- Claim C5: after the forward-fill pass, the cell of any campaign-scoped
column present in the table at any row equals the nearest preceding non-blank
value of that column (itself included), scanning rows in input order; a blank
cell is therefore replaced by the last earlier non-blank value, and a
non-blank cell is kept. -/
theorem fbm_C5 (t : Table) (col : String) (i : Nat)
    (hwf : TableWF t) (hc : col ∈ campaign_cols) (hcin : col ∈ t.cols)
    (hi : i < t.rows.length) :
    getCellJ ((ffillCampaign t).rows.getD i []) col =
      lastSomeFrom none ((t.rows.take (i + 1)).map (fun r => getCellJ r col)) := by
  have hkeys : ∀ r ∈ t.rows, col ∈ r.map Prod.fst := by
    intro r hr
    rw [hwf r hr]
    exact hcin
  have hnd : campaign_cols.Nodup := by decide
  have hmain := fold_ffill_main campaign_cols t.cols col hnd hc hcin t.rows hkeys
  have hrows : (ffillCampaign t).rows =
      campaign_cols.foldl (fun rs c => if c ∈ t.cols then ffillColumn c rs else rs) t.rows := rfl
  have hlen : (campaign_cols.foldl
      (fun rs c => if c ∈ t.cols then ffillColumn c rs else rs) t.rows).length =
      t.rows.length := by
    have hk := fold_ffill_keys campaign_cols t.cols t.rows
    have := congrArg List.length hk
    simpa using this
  rw [hrows]
  have hgd := map_getD_of_lt (fun r => getCellJ r col)
    (campaign_cols.foldl (fun rs c => if c ∈ t.cols then ffillColumn c rs else rs) t.rows) i
    (by rw [hlen]; exact hi) [] none
  rw [← hgd, hmain]
  rw [ffillCellsGo_getD none _ i (by simpa using hi)]
  rw [← List.map_take]

/-- Witness for C5: a campaign row named Brand followed by two adset rows
with blank campaign cells; both adset rows inherit Brand, and the two built
adset records carry the re-validated campaign name Brand. -/
theorem fbm_C5_witness :
    getCellJ ((ffillCampaign tblC5).rows.getD 2 []) "Campaign Name" =
      lastSomeFrom none ((tblC5.rows.take 3).map (fun r => getCellJ r "Campaign Name")) ∧
    getCellJ ((ffillCampaign tblC5).rows.getD 2 []) "Campaign Name" = some "Brand" ∧
    List.lookup "Campaign Name" ((recordsOf (transformOutcomes todt0 tblC5)).getD 1 []) =
      some "Brand" ∧
    List.lookup "Campaign Name" ((recordsOf (transformOutcomes todt0 tblC5)).getD 2 []) =
      some "Brand" :=
  ⟨fbm_C5 tblC5 "Campaign Name" 2 (by decide) (by decide) (by decide) (by decide),
   by decide, by decide, by decide⟩

theorem obind_some {α β : Type} (a : α) (f : α → Option β) : (some a >>= f) = f a := rfl

theorem charDigit_digitChar (n : Nat) : charDigit? (digitChar n) = some (n % 10) := by
  have h : n % 10 < 10 := Nat.mod_lt n (by omega)
  unfold digitChar
  generalize hk : n % 10 = k at h ⊢
  interval_cases k <;> decide

theorem digitChar_not_ws (n : Nat) : isWs (digitChar n) = false := by
  have h : n % 10 < 10 := Nat.mod_lt n (by omega)
  unfold digitChar
  generalize hk : n % 10 = k at h ⊢
  interval_cases k <;> decide

theorem pNum2_pad2 (n : Nat) (lo2 hi2 lo1 hi1 : Nat) (h2 : lo2 ≤ n ∧ n ≤ hi2) (hn : n < 100)
    (rest : List Char) :
    pNum2 lo2 hi2 lo1 hi1 (pad2 n ++ rest) = some (n, rest) := by
  show pNum2 lo2 hi2 lo1 hi1 (digitChar (n / 10) :: digitChar n :: rest) = _
  simp only [pNum2]
  rw [charDigit_digitChar, charDigit_digitChar]
  dsimp only
  have hv : 10 * (n / 10 % 10) + n % 10 = n := by omega
  rw [hv, if_pos h2]

theorem pYear_pad4 (n : Nat) (hn : n < 10000) (rest : List Char) :
    pYear (pad4 n ++ rest) = some (n, rest) := by
  show pYear (digitChar (n / 1000) :: digitChar (n / 100) :: digitChar (n / 10) ::
    digitChar n :: rest) = _
  simp only [pYear]
  rw [charDigit_digitChar, charDigit_digitChar, charDigit_digitChar, charDigit_digitChar]
  have hv : ((n / 1000 % 10 * 10 + n / 100 % 10) * 10 + n / 10 % 10) * 10 + n % 10 = n := by
    omega
  exact congrArg (fun z => (some (z, rest) : Option (Nat × List Char))) hv

theorem pChar_cons (c : Char) (l : List Char) : pChar c (c :: l) = some l := by
  simp [pChar]

theorem skipWs_digit (m : Nat) (l : List Char) : skipWs (digitChar m :: l) = digitChar m :: l := by
  simp only [skipWs]
  rw [digitChar_not_ws]
  simp

theorem pWs_space_digit (m : Nat) (l : List Char) :
    pWs (' ' :: digitChar m :: l) = some (digitChar m :: l) := by
  simp only [pWs]
  rw [show isWs ' ' = true from rfl]
  simp [skipWs_digit]

theorem strptime_strftime (t : DT) (h : validDT t) :
    strptime_ymd_hm (strftime_ymd_hm t) = some t := by
  obtain ⟨h1, h2, h3, h4, h5, h6, h7, h8⟩ := h
  unfold strptime_ymd_hm
  rw [show (strftime_ymd_hm t).data = pad4 t.y ++ '-' :: (pad2 t.mo ++ '-' ::
    (pad2 t.d ++ ' ' :: (pad2 t.hh ++ ':' :: pad2 t.mi))) from rfl]
  rw [pYear_pad4 t.y (by omega)]
  simp only [obind_some]
  rw [pChar_cons]
  simp only [obind_some]
  rw [pNum2_pad2 t.mo 1 12 1 9 ⟨h3, h4⟩ (by omega)]
  simp only [obind_some]
  rw [pChar_cons]
  simp only [obind_some]
  have hd31 : t.d ≤ 31 := by
    have hdm : daysInMonth t.y t.mo ≤ 31 := by
      unfold daysInMonth
      split_ifs <;> omega
    omega
  rw [pNum2_pad2 t.d 1 31 1 9 ⟨h5, hd31⟩ (by omega)]
  simp only [obind_some]
  rw [show pad2 t.hh ++ ':' :: pad2 t.mi =
    digitChar (t.hh / 10) :: digitChar t.hh :: ':' :: pad2 t.mi from rfl]
  rw [show (' ' :: (digitChar (t.hh / 10) :: digitChar t.hh :: ':' :: pad2 t.mi)) =
    ' ' :: digitChar (t.hh / 10) :: (digitChar t.hh :: ':' :: pad2 t.mi) from rfl]
  rw [pWs_space_digit]
  simp only [obind_some]
  rw [show digitChar (t.hh / 10) :: digitChar t.hh :: ':' :: pad2 t.mi =
    pad2 t.hh ++ ':' :: pad2 t.mi from rfl]
  rw [pNum2_pad2 t.hh 0 23 0 9 ⟨by omega, h7⟩ (by omega)]
  simp only [obind_some]
  rw [pChar_cons]
  simp only [obind_some]
  rw [show pad2 t.mi = pad2 t.mi ++ [] from (List.append_nil _).symm]
  rw [pNum2_pad2 t.mi 0 59 0 9 ⟨by omega, h8⟩ (by omega)]
  simp only [obind_some]
  rw [if_pos (show True ∧ 1 ≤ t.y ∧ t.d ≤ daysInMonth t.y t.mo from ⟨trivial, h1, h6⟩)]

theorem strftime_length (t : DT) : (strftime_ymd_hm t).length = 16 := by
  show (strftime_ymd_hm t).data.length = 16
  rw [show (strftime_ymd_hm t).data = pad4 t.y ++ '-' :: (pad2 t.mo ++ '-' ::
    (pad2 t.d ++ ' ' :: (pad2 t.hh ++ ':' :: pad2 t.mi))) from rfl]
  simp [pad4, pad2]

theorem strftime_data_10 (t : DT) : (strftime_ymd_hm t).data[10]? = some ' ' := by
  rw [show (strftime_ymd_hm t).data = digitChar (t.y / 1000) :: digitChar (t.y / 100) ::
    digitChar (t.y / 10) :: digitChar t.y :: '-' :: digitChar (t.mo / 10) :: digitChar t.mo ::
    '-' :: digitChar (t.d / 10) :: digitChar t.d :: ' ' :: digitChar (t.hh / 10) ::
    digitChar t.hh :: ':' :: digitChar (t.mi / 10) :: digitChar t.mi :: [] from rfl]
  rfl

theorem strftime_ne_empty (t : DT) : strftime_ymd_hm t ≠ "" := by
  intro h
  have h1 := strftime_length t
  rw [h] at h1
  simp at h1

theorem strftime_strip (t : DT) : pyStrip (strftime_ymd_hm t) = strftime_ymd_hm t := by
  show String.mk (stripList (strftime_ymd_hm t).data) = _
  rw [show (strftime_ymd_hm t).data = digitChar (t.y / 1000) :: digitChar (t.y / 100) ::
    digitChar (t.y / 10) :: digitChar t.y :: '-' :: digitChar (t.mo / 10) :: digitChar t.mo ::
    '-' :: digitChar (t.d / 10) :: digitChar t.d :: ' ' :: digitChar (t.hh / 10) ::
    digitChar t.hh :: ':' :: digitChar (t.mi / 10) :: digitChar t.mi :: [] from rfl]
  unfold stripList
  rw [List.dropWhile_cons, digitChar_not_ws]
  simp only [Bool.false_eq_true, if_false]
  rw [show (digitChar (t.y / 1000) :: digitChar (t.y / 100) :: digitChar (t.y / 10) ::
    digitChar t.y :: '-' :: digitChar (t.mo / 10) :: digitChar t.mo :: '-' ::
    digitChar (t.d / 10) :: digitChar t.d :: ' ' :: digitChar (t.hh / 10) :: digitChar t.hh ::
    ':' :: digitChar (t.mi / 10) :: digitChar t.mi :: []).reverse =
    digitChar t.mi :: digitChar (t.mi / 10) :: ':' :: digitChar t.hh :: digitChar (t.hh / 10) ::
    ' ' :: digitChar t.d :: digitChar (t.d / 10) :: '-' :: digitChar t.mo ::
    digitChar (t.mo / 10) :: '-' :: digitChar t.y :: digitChar (t.y / 10) ::
    digitChar (t.y / 100) :: digitChar (t.y / 1000) :: [] from by
      simp]
  rw [List.dropWhile_cons, digitChar_not_ws]
  simp only [Bool.false_eq_true, if_false]
  rw [show (digitChar t.mi :: digitChar (t.mi / 10) :: ':' :: digitChar t.hh ::
    digitChar (t.hh / 10) :: ' ' :: digitChar t.d :: digitChar (t.d / 10) :: '-' ::
    digitChar t.mo :: digitChar (t.mo / 10) :: '-' :: digitChar t.y :: digitChar (t.y / 10) ::
    digitChar (t.y / 100) :: digitChar (t.y / 1000) :: []).reverse =
    digitChar (t.y / 1000) :: digitChar (t.y / 100) :: digitChar (t.y / 10) :: digitChar t.y ::
    '-' :: digitChar (t.mo / 10) :: digitChar t.mo :: '-' :: digitChar (t.d / 10) ::
    digitChar t.d :: ' ' :: digitChar (t.hh / 10) :: digitChar t.hh :: ':' ::
    digitChar (t.mi / 10) :: digitChar t.mi :: [] from by
      simp]
  rfl

/-- Counterexample to C4 as stated: the 10-character value abcdefghij is not
a date and parses under no general parser (here the parser that parses
nothing), yet the coercion returns it with a midnight time appended instead
of failing — an unparsable value is returned as a result. -/
theorem fbm_C4_counterexample :
    _coerce_time todt0 (some "abcdefghij") = .ok "abcdefghij 00:00" ∧
    strptime_ymd_hm "abcdefghij" = none ∧
    todt0 "abcdefghij" = none := by
  refine ⟨rfl, by decide, rfl⟩

/-- Claim C4 amended: blank gives the empty string; a canonical
YYYY-MM-DD HH:MM value round-trips verbatim through strptime; ANY value
whose stripped form has exactly 10 characters — valid date or not — is
returned with a midnight time appended without parsing; every other value
goes to the general parser and is either re-rendered or fails with the
invalid-time error. -/
theorem fbm_C4_amended (todt : ToDatetime) :
    (_coerce_time todt none = .ok "" ∧ _coerce_time todt (some "") = .ok "") ∧
    (∀ t : DT, validDT t →
      _coerce_time todt (some (strftime_ymd_hm t)) = .ok (strftime_ymd_hm t)) ∧
    (∀ s : String, s ≠ "" → (pyStrip s).length = 10 →
      _coerce_time todt (some s) = .ok (pyStrip s ++ " 00:00")) ∧
    (∀ s : String, s ≠ "" →
      ¬((pyStrip s).length = 16 ∧ (pyStrip s).data[10]? = some ' ') →
      (pyStrip s).length ≠ 10 →
      _coerce_time todt (some s) =
        (match todt (pyStrip s) with
         | some t => .ok (strftime_ymd_hm t)
         | none => .error ("Invalid time format: " ++ pyStrip s ++
             ". Use YYYY-MM-DD HH:MM or YYYY-MM-DD"))) := by
  refine ⟨⟨rfl, rfl⟩, ?_, ?_, ?_⟩
  · intro t ht
    unfold _coerce_time
    rw [if_neg (by simp [strftime_ne_empty t])]
    simp only [pyStr]
    rw [strftime_strip]
    rw [if_pos ⟨strftime_length t, strftime_data_10 t⟩]
    rw [strptime_strftime t ht]
  · intro s hs h10
    unfold _coerce_time
    rw [if_neg (by simp [hs])]
    simp only [pyStr]
    rw [if_neg (fun hh => by rw [h10] at hh; exact absurd hh.1 (by omega))]
    rw [if_pos h10]
  · intro s hs h16 h10
    unfold _coerce_time
    rw [if_neg (by simp [hs])]
    simp only [pyStr]
    rw [if_neg h16, if_neg h10]

/-- Witness for the amended C4 at concrete inputs: a canonical value is
returned verbatim, a 10-character junk value gets a midnight time appended,
and an unparsable short value errors. -/
theorem fbm_C4_witness :
    _coerce_time todt0 (some (strftime_ymd_hm ⟨2025, 1, 2, 3, 4⟩)) =
      .ok (strftime_ymd_hm ⟨2025, 1, 2, 3, 4⟩) ∧
    strftime_ymd_hm ⟨2025, 1, 2, 3, 4⟩ = "2025-01-02 03:04" ∧
    _coerce_time todt0 (some " 2024-13-99 ") = .ok (pyStrip " 2024-13-99 " ++ " 00:00") ∧
    pyStrip " 2024-13-99 " ++ " 00:00" = "2024-13-99 00:00" ∧
    _coerce_time todt0 (some "x") =
      (match todt0 (pyStrip "x") with
       | some t => .ok (strftime_ymd_hm t)
       | none => .error ("Invalid time format: " ++ pyStrip "x" ++
           ". Use YYYY-MM-DD HH:MM or YYYY-MM-DD")) :=
  ⟨(fbm_C4_amended todt0).2.1 ⟨2025, 1, 2, 3, 4⟩ (by decide),
   by decide,
   (fbm_C4_amended todt0).2.2.1 " 2024-13-99 " (by decide) (by decide),
   by decide,
   (fbm_C4_amended todt0).2.2.2 "x" (by decide) (by decide) (by decide)⟩
